import Mathlib

/-!
Shallow embedding of the civic-connect vote / status / query subsystem.

The embedded code lives in three source units: the SQL migration
(`migrations/0000_init.sql`, tables and constraints), the Express routes
(`registerRoutes`), and the storage layer (`PostgreSQLStorage`).  Rows are
Lean structures, tables are lists of rows kept in a `Db` record, and every
storage method and route handler becomes a pure function from a `Db`
(plus the request parameters, the generated row id and the current time)
to a response and the successor `Db`.  Fallible SQL statements return
`Except DbError`.
-/

/-- Vote kind: column `vote_type` with CHECK constraint making it `up` or `down`. -/
inductive VoteType where
  | up
  | down
deriving DecidableEq, Repr

/-- String form of a vote kind as it travels in request/response bodies. -/
def VoteType.toStr : VoteType → String
  | .up => "up"
  | .down => "down"

/-- The `grievance_status` enum of the schema. -/
inductive GStatus where
  | pending
  | urgent
  | inProgress
  | resolved
  | closed
deriving DecidableEq, Repr

/-- String form of a status as stored in the enum / sent over the API. -/
def GStatus.toStr : GStatus → String
  | .pending => "pending"
  | .urgent => "urgent"
  | .inProgress => "in-progress"
  | .resolved => "resolved"
  | .closed => "closed"

/-- A row of the `users` table (the columns the subsystem reads). -/
structure User where
  id : String
  username : String
  utype : String
deriving DecidableEq, Repr

/-- A row of the `grievances` table.  Timestamps are epoch milliseconds. -/
structure Grievance where
  id : String
  title : String
  description : String
  category : String
  municipality : String
  location : Option String
  authorId : String
  timestamp : Int
  upvotes : Int
  downvotes : Int
  status : GStatus
  imageUrl : Option String
  updatedAt : Int
deriving DecidableEq, Repr

/-- A row of the `comments` table. -/
structure Comment where
  id : String
  grievanceId : String
  authorId : String
  text : String
  timestamp : Int
  upvotes : Int
deriving DecidableEq, Repr

/-- A row of the `user_votes` table.  `grievanceId`/`commentId` are the two
nullable target columns constrained by `vote_target_check`. -/
structure UserVote where
  id : String
  userId : String
  grievanceId : Option String
  commentId : Option String
  voteType : VoteType
  timestamp : Int
deriving DecidableEq, Repr

/-- The database state: one list per table the subsystem touches. -/
structure Db where
  users : List User
  grievances : List Grievance
  comments : List Comment
  userVotes : List UserVote
deriving DecidableEq, Repr

/-- Errors a SQL statement can raise: `23505` unique_violation,
`23503` foreign_key_violation, `23514` check_violation, `22P02`
invalid_text_representation (binding a string outside an enum's labels). -/
inductive DbError where
  | uniqueViolation
  | fkViolation
  | checkViolation
  | invalidTextRepresentation
deriving DecidableEq, Repr

/-- The where-clause built by `getUserVote` / `removeVote`: the `userId`
condition always, plus an equality condition for each target id supplied. -/
def voteMatches (uid : String) (gid cid : Option String) (v : UserVote) : Bool :=
  v.userId == uid
    && (match gid with
        | some g => v.grievanceId == some g
        | none => true)
    && (match cid with
        | some c => v.commentId == some c
        | none => true)

/-- `PostgreSQLStorage.getUserVote`: select the first vote row matching the
conditions (`limit 1`). -/
def getUserVote (db : Db) (uid : String) (gid cid : Option String) : Option UserVote :=
  db.userVotes.find? (voteMatches uid gid cid)

/-- `PostgreSQLStorage.removeVote`: delete matching rows, report whether any
row was deleted (`rowCount > 0`). -/
def removeVote (db : Db) (uid : String) (gid cid : Option String) : Bool × Db :=
  let remaining := db.userVotes.filter (fun v => !voteMatches uid gid cid v)
  (decide (remaining.length < db.userVotes.length), { db with userVotes := remaining })

/-- The argument of `createOrUpdateVote` (schema `insertUserVoteSchema`:
a vote row minus the generated `id` and `timestamp`). -/
structure InsertUserVote where
  userId : String
  grievanceId : Option String := none
  commentId : Option String := none
  voteType : VoteType
deriving DecidableEq, Repr

/-- `INSERT INTO user_votes`: the check constraint `vote_target_check` is
verified first, then the two unique constraints (B-tree insertion), then the
foreign keys; on success the new row is appended. -/
def insertVoteRow (db : Db) (v : InsertUserVote) (newId : String) (now : Int) :
    Except DbError (UserVote × Db) :=
  if !((v.grievanceId.isSome && v.commentId.isNone)
       || (v.grievanceId.isNone && v.commentId.isSome)) then
    .error .checkViolation
  else if (match v.grievanceId with
           | some g => db.userVotes.any (fun r => r.userId == v.userId && r.grievanceId == some g)
           | none => false) then
    .error .uniqueViolation
  else if (match v.commentId with
           | some c => db.userVotes.any (fun r => r.userId == v.userId && r.commentId == some c)
           | none => false) then
    .error .uniqueViolation
  else if !(db.users.any (fun u => u.id == v.userId)) then
    .error .fkViolation
  else if (match v.grievanceId with
           | some g => !(db.grievances.any (fun gr => gr.id == g))
           | none => false) then
    .error .fkViolation
  else if (match v.commentId with
           | some c => !(db.comments.any (fun cm => cm.id == c))
           | none => false) then
    .error .fkViolation
  else
    let row : UserVote :=
      { id := newId, userId := v.userId, grievanceId := v.grievanceId,
        commentId := v.commentId, voteType := v.voteType, timestamp := now }
    .ok (row, { db with userVotes := db.userVotes ++ [row] })

/-- The where-clause of the fallback update in `createOrUpdateVote`:
`userId` equality, and `grievanceId` equality when the insert carried a
grievance target, otherwise `commentId` equality. -/
def upsertFallbackPred (v : InsertUserVote) (r : UserVote) : Bool :=
  r.userId == v.userId
    && (match v.grievanceId with
        | some g => r.grievanceId == some g
        | none => r.commentId == v.commentId)

/-- `PostgreSQLStorage.createOrUpdateVote`: try the insert; if it fails with
`23505` (unique_violation) update the existing row's kind and timestamp and
return the first updated row (`returning()[0]`); any other error is rethrown. -/
def createOrUpdateVote (db : Db) (v : InsertUserVote) (newId : String) (now : Int) :
    Except DbError (Option UserVote × Db) :=
  match insertVoteRow db v newId now with
  | .ok (row, db') => .ok (some row, db')
  | .error .uniqueViolation =>
      let updated := db.userVotes.map (fun r =>
        if upsertFallbackPred v r then { r with voteType := v.voteType, timestamp := now } else r)
      .ok ((updated.filter (upsertFallbackPred v)).head?, { db with userVotes := updated })
  | .error e => .error e

/-- Number of vote rows in `votes` for grievance `g` with kind `k`. -/
def countVG (votes : List UserVote) (g : String) (k : VoteType) : Nat :=
  (votes.filter (fun v => v.grievanceId == some g && v.voteType == k)).length

/-- Number of `up` vote rows in `votes` for comment `c`. -/
def countVC (votes : List UserVote) (c : String) : Nat :=
  (votes.filter (fun v => v.commentId == some c && v.voteType == VoteType.up)).length

/-- `PostgreSQLStorage.updateVoteCounts`: when a grievance id is supplied,
count its `up` and `down` vote rows and write both counters onto it; when a
comment id is supplied, count its `up` rows and write that single counter. -/
def updateVoteCounts (db : Db) (gid cid : Option String) : Db :=
  let db1 :=
    match gid with
    | some g =>
        let up := countVG db.userVotes g .up
        let down := countVG db.userVotes g .down
        { db with grievances := db.grievances.map (fun gr =>
            if gr.id == g then { gr with upvotes := (up : Int), downvotes := (down : Int) } else gr) }
    | none => db
  match cid with
  | some c =>
      let up := countVC db1.userVotes c
      { db1 with comments := db1.comments.map (fun cm =>
          if cm.id == c then { cm with upvotes := (up : Int) } else cm) }
  | none => db1

/-- `PostgreSQLStorage.getGrievance`: first grievance row with the given id,
left-joined with its author's username. -/
def getGrievance (db : Db) (id : String) : Option (Grievance × Option String) :=
  (db.grievances.find? (fun g => g.id == id)).map (fun g =>
    (g, (db.users.find? (fun u => u.id == g.authorId)).map (fun u => u.username)))

/-- Response of `POST /api/grievances/:id/vote`. -/
inductive GVoteResult where
  | badRequest
  | notFound
  | serverError
  | ok (upvotes downvotes : Int) (userVote : Option VoteType)
deriving DecidableEq, Repr

/-- The toggle of `POST /api/grievances/:id/vote`: read the caller's
existing vote for the grievance; same kind → delete it, otherwise upsert the
requested kind. -/
def grievanceVoteStep (db : Db) (uid gid : String) (k : VoteType) (newId : String) (now : Int) :
    Except DbError Db :=
  match getUserVote db uid (some gid) none with
  | some ev =>
      if ev.voteType == k then
        .ok (removeVote db uid (some gid) none).2
      else
        (createOrUpdateVote db
          { userId := uid, grievanceId := some gid, voteType := k } newId now).map (·.2)
  | none =>
      (createOrUpdateVote db
        { userId := uid, grievanceId := some gid, voteType := k } newId now).map (·.2)

/-- The handler of `POST /api/grievances/:id/vote` for an authenticated
session user `uid`: validate the vote kind, 404 on an absent grievance, then
the toggle (same kind → delete the vote row, otherwise upsert), then the
counter recount, then respond with the re-read counters and vote. -/
def grievanceVoteRoute (db : Db) (uid gid voteType : String) (newId : String) (now : Int) :
    GVoteResult × Db :=
  if !(voteType == "up" || voteType == "down") then
    (.badRequest, db)
  else
    let k : VoteType := if voteType == "up" then .up else .down
    match getGrievance db gid with
    | none => (.notFound, db)
    | some _ =>
        match grievanceVoteStep db uid gid k newId now with
        | .error _ => (.serverError, db)
        | .ok db1 =>
            let db2 := updateVoteCounts db1 (some gid) none
            let updatedGrievance := getGrievance db2 gid
            let userVote := getUserVote db2 uid (some gid) none
            (.ok ((updatedGrievance.map (fun p => p.1.upvotes)).getD 0)
                 ((updatedGrievance.map (fun p => p.1.downvotes)).getD 0)
                 (userVote.map (fun v => v.voteType)), db2)

/-- Response of `POST /api/comments/:id/vote`. -/
inductive CVoteResult where
  | badRequest
  | serverError
  | ok (userVote : Option VoteType)
deriving DecidableEq, Repr

/-- The toggle of `POST /api/comments/:id/vote`, mirroring
`grievanceVoteStep` with a comment target. -/
def commentVoteStep (db : Db) (uid cid : String) (k : VoteType) (newId : String) (now : Int) :
    Except DbError Db :=
  match getUserVote db uid none (some cid) with
  | some ev =>
      if ev.voteType == k then
        .ok (removeVote db uid none (some cid)).2
      else
        (createOrUpdateVote db
          { userId := uid, commentId := some cid, voteType := k } newId now).map (·.2)
  | none =>
      (createOrUpdateVote db
        { userId := uid, commentId := some cid, voteType := k } newId now).map (·.2)

/-- The handler of `POST /api/comments/:id/vote` for an authenticated session
user `uid`: validate the kind, then (with no existence check on the comment)
the toggle, the recount, and the response carrying only the user's vote. -/
def commentVoteRoute (db : Db) (uid cid voteType : String) (newId : String) (now : Int) :
    CVoteResult × Db :=
  if !(voteType == "up" || voteType == "down") then
    (.badRequest, db)
  else
    let k : VoteType := if voteType == "up" then .up else .down
    match commentVoteStep db uid cid k newId now with
    | .error _ => (.serverError, db)
    | .ok db1 =>
        let db2 := updateVoteCounts db1 none (some cid)
        let userVote := getUserVote db2 uid none (some cid)
        (.ok (userVote.map (fun v => v.voteType)), db2)

/-- Lower-case a character, as SQL `ILIKE` compares case-insensitively. -/
def lowerChar (c : Char) : Char := c.toLower

/-- All suffixes of a character list, longest first (the list itself down
to the empty suffix). -/
def tailsList : List Char → List (List Char)
  | [] => [[]]
  | c :: t => (c :: t) :: tailsList t

/-- SQL `LIKE`/`ILIKE` pattern matching over character lists (pattern first):
`%` matches when the rest of the pattern matches some suffix, `_` any single
character, a backslash escapes the next pattern character, and plain
characters compare after lower-casing. -/
def likeMatch : List Char → List Char → Bool
  | [], s => s.isEmpty
  | c :: p, s =>
      if c = '%' then
        (tailsList s).any (fun s' => likeMatch p s')
      else if c = '_' then
        (match s with
         | [] => false
         | _ :: s' => likeMatch p s')
      else if c = '\\' then
        (match p with
         | [] => false
         | e :: p' =>
             match s with
             | [] => false
             | d :: s' => lowerChar d == lowerChar e && likeMatch p' s')
      else
        (match s with
         | [] => false
         | d :: s' => lowerChar d == lowerChar c && likeMatch p s')

/-- `expr ILIKE pattern` on strings. -/
def ilike (s pat : String) : Bool := likeMatch pat.data s.data

/-- JavaScript truthiness of an optional string filter value: absent or
empty means falsy (`filters.x && ...` skips the condition). -/
def strTruthy : Option String → Bool
  | none => false
  | some s => !(s == "")

/-- The filter record built by `GET /api/grievances` and accepted by
`PostgreSQLStorage.getGrievances`. -/
structure Filters where
  category : Option String := none
  municipality : Option String := none
  status : Option String := none
  authorId : Option String := none
  search : Option String := none
  sortBy : Option String := none
  limit : Option Nat := none
  offset : Option Nat := none
deriving DecidableEq, Repr

/-- The conjunction of where-conditions `getGrievances` pushes for a filter
record: equality conditions guarded by truthiness and the `all` sentinel, and
the three-way `ILIKE '%'+search+'%'` disjunction for the text search.  The
status comparison is meaningful only for values among the enum labels: an
active status value outside them never reaches row comparison because the
query raises `22P02` first — that path lives in `getGrievancesE`. -/
def matchesFilters (f : Filters) (g : Grievance) : Bool :=
  (if strTruthy f.category && !(f.category == some "all") then
      g.category == f.category.getD ""
    else true)
  && (if strTruthy f.municipality && !(f.municipality == some "all") then
        g.municipality == f.municipality.getD ""
      else true)
  && (if strTruthy f.status && !(f.status == some "all") then
        g.status.toStr == f.status.getD ""
      else true)
  && (match f.authorId with
      | some a => if a == "" then true else g.authorId == a
      | none => true)
  && (if strTruthy f.search then
        let pat := "%" ++ f.search.getD "" ++ "%"
        ilike g.title pat || ilike g.description pat
          || (match g.location with
              | some loc => ilike loc pat
              | none => false)
      else true)

/-- The `CASE WHEN status = 'urgent' THEN 0 ELSE 1 END` sort expression. -/
def urgCase (g : Grievance) : Int := if g.status == GStatus.urgent then 0 else 1

/-- The order relation of the `sortBy` switch in `getGrievances`: `oldest`
is timestamp ascending, `upvotes-high` / `upvotes-low` net votes descending /
ascending, `urgent` is the urgency case expression ascending then timestamp
descending, and everything else (the default) timestamp descending. -/
def sortKeyLE (k : Option String) (a b : Grievance) : Prop :=
  if k = some "oldest" then a.timestamp ≤ b.timestamp
  else if k = some "upvotes-high" then b.upvotes - b.downvotes ≤ a.upvotes - a.downvotes
  else if k = some "upvotes-low" then a.upvotes - a.downvotes ≤ b.upvotes - b.downvotes
  else if k = some "urgent" then
    urgCase a < urgCase b ∨ (urgCase a = urgCase b ∧ b.timestamp ≤ a.timestamp)
  else b.timestamp ≤ a.timestamp

instance (k : Option String) : DecidableRel (sortKeyLE k) := by
  intro a b
  unfold sortKeyLE
  infer_instance

/-- One admissible evaluation of the `ORDER BY` of `getGrievances` (an
insertion sort by the key's order relation), used to make the model
executable.  `ORDER BY` itself guarantees only what `admissibleSort`
states; it fixes no order among rows with equal keys. -/
def sortGrievances (k : Option String) (l : List Grievance) : List Grievance :=
  l.insertionSort (sortKeyLE k)

/-- What the SQL `ORDER BY` guarantees about a returned row order: it is a
permutation of the matching rows that is ordered by the sort key's
relation.  PostgreSQL promises nothing about the relative order of rows
with equal keys, and the code adds no tie-break, so every output
satisfying this contract is a possible result of the program. -/
def admissibleSort (k : Option String) (input output : List Grievance) : Prop :=
  output.Perm input ∧ output.Pairwise (sortKeyLE k)

/-- The left join with `users` in the select list of `getGrievances`:
each grievance row is paired with its author's username (null if the join
finds no user). -/
def joinAuthor (db : Db) (g : Grievance) : Grievance × Option String :=
  (g, (db.users.find? (fun u => u.id == g.authorId)).map (fun u => u.username))

/-- `LIMIT l OFFSET o` with the route's JavaScript truthiness: a limit or
offset of `0` (or absent) is not applied.  SQL applies the offset first. -/
def paginate (limit offset : Option Nat) (l : List α) : List α :=
  let l1 := match offset with
    | some o => if o == 0 then l else l.drop o
    | none => l
  match limit with
  | some n => if n == 0 then l1 else l1.take n
  | none => l1

/-- The non-raising evaluation of `PostgreSQLStorage.getGrievances`:
filter, sort, join the author name, paginate; the returned total comes from
a separate count query over the same where-conditions, without the join,
the order or the pagination.  The full method, including the enum-cast
error path, is `getGrievancesE`. -/
def getGrievances (db : Db) (f : Filters) : List (Grievance × Option String) × Nat :=
  let filtered := db.grievances.filter (matchesFilters f)
  let total := filtered.length
  let sorted := sortGrievances f.sortBy filtered
  let rows := (paginate f.limit f.offset sorted).map (joinAuthor db)
  (rows, total)

/-- The labels of the `grievance_status` enum.  Binding any other string as
the status parameter makes Postgres raise `22P02`. -/
def validStatusStr (s : String) : Bool :=
  s == "pending" || s == "urgent" || s == "in-progress" || s == "resolved" || s == "closed"

/-- `PostgreSQLStorage.getGrievances` with its error path: the code pushes
`eq(grievances.status, filters.status as any)` against the enum column, so
an active status filter whose value is not an enum label makes the query
raise invalid_text_representation (the route then answers 500); otherwise
the queries evaluate as `getGrievances`. -/
def getGrievancesE (db : Db) (f : Filters) :
    Except DbError (List (Grievance × Option String) × Nat) :=
  if strTruthy f.status && !(f.status == some "all") && !validStatusStr (f.status.getD "") then
    .error .invalidTextRepresentation
  else
    .ok (getGrievances db f)

/-- `getPriorityScore` from the admin page: net votes, doubled when urgent,
minus one tenth per full day of age, clamped at zero.  Arithmetic is over
`ℚ`; `now` and the grievance timestamp are epoch milliseconds. -/
def getPriorityScore (g : Grievance) (now : Int) : ℚ :=
  let baseScore : ℚ := (g.upvotes : ℚ) - (g.downvotes : ℚ)
  let urgentMultiplier : ℚ := if g.status == GStatus.urgent then 2 else 1
  let ageHours : ℚ := ((now : ℚ) - (g.timestamp : ℚ)) / (1000 * 60 * 60)
  let agePenalty : ℚ := (⌊ageHours / 24⌋ : ℚ) * (1 / 10)
  max 0 (baseScore * urgentMultiplier - agePenalty)

/-- The body of `PATCH /api/grievances/:id`: a partial grievance, every
field optional.  `updatedAt` is absent because the storage layer overwrites
it unconditionally. -/
structure GrievanceUpdates where
  id : Option String := none
  title : Option String := none
  description : Option String := none
  category : Option String := none
  municipality : Option String := none
  location : Option (Option String) := none
  authorId : Option String := none
  timestamp : Option Int := none
  upvotes : Option Int := none
  downvotes : Option Int := none
  status : Option GStatus := none
  imageUrl : Option (Option String) := none
deriving DecidableEq, Repr

/-- The `set({...updates, updatedAt: new Date()})` of
`PostgreSQLStorage.updateGrievance` applied to one row. -/
def applyUpdates (g : Grievance) (u : GrievanceUpdates) (now : Int) : Grievance :=
  { id := u.id.getD g.id
    title := u.title.getD g.title
    description := u.description.getD g.description
    category := u.category.getD g.category
    municipality := u.municipality.getD g.municipality
    location := u.location.getD g.location
    authorId := u.authorId.getD g.authorId
    timestamp := u.timestamp.getD g.timestamp
    upvotes := u.upvotes.getD g.upvotes
    downvotes := u.downvotes.getD g.downvotes
    status := u.status.getD g.status
    imageUrl := u.imageUrl.getD g.imageUrl
    updatedAt := now }

/-- `PostgreSQLStorage.updateGrievance`: update the rows with the given id,
returning the first updated row. -/
def updateGrievance (db : Db) (gid : String) (u : GrievanceUpdates) (now : Int) :
    Option Grievance × Db :=
  ((db.grievances.find? (fun g => g.id == gid)).map (fun g => applyUpdates g u now),
   { db with grievances := db.grievances.map (fun g =>
       if g.id == gid then applyUpdates g u now else g) })

/-- Response of `PATCH /api/grievances/:id`. -/
inductive PatchResult where
  | unauthorized
  | notFoundP
  | forbidden
  | okP (g : Option Grievance)
deriving DecidableEq, Repr

/-- The handler of `PATCH /api/grievances/:id`: 401 without a session, 404 on
an absent grievance, 403 when the caller is neither the author nor an admin,
otherwise the whole body is applied through `updateGrievance`. -/
def patchGrievanceRoute (db : Db) (session : Option (String × String)) (gid : String)
    (u : GrievanceUpdates) (now : Int) : PatchResult × Db :=
  match session with
  | none => (.unauthorized, db)
  | some (uid, utype) =>
      match getGrievance db gid with
      | none => (.notFoundP, db)
      | some (g, _) =>
          if !(g.authorId == uid) && !(utype == "admin") then
            (.forbidden, db)
          else
            let (res, db') := updateGrievance db gid u now
            (.okP res, db')

/-- The `vote_target_check` constraint: a vote row references exactly one of
a grievance and a comment. -/
def voteTargetOk (v : UserVote) : Prop :=
  (v.grievanceId.isSome = true ∧ v.commentId = none)
    ∨ (v.grievanceId = none ∧ v.commentId.isSome = true)

/-- All vote rows satisfy `vote_target_check`. -/
def wfTargets (db : Db) : Prop := ∀ v ∈ db.userVotes, voteTargetOk v

/-- The counter invariant: every grievance's denormalized `upvotes` /
`downvotes` equal the counts of its vote rows of each kind, and every
comment's `upvotes` equals the count of its `up` vote rows. -/
def countersConsistent (db : Db) : Prop :=
  (∀ g ∈ db.grievances,
      g.upvotes = (countVG db.userVotes g.id .up : Int)
      ∧ g.downvotes = (countVG db.userVotes g.id .down : Int))
  ∧ (∀ c ∈ db.comments, c.upvotes = (countVC db.userVotes c.id : Int))

/-- Equality of all grievance fields except the two vote counters. -/
def gFrameEq (g g' : Grievance) : Prop :=
  g'.id = g.id ∧ g'.title = g.title ∧ g'.description = g.description
    ∧ g'.category = g.category ∧ g'.municipality = g.municipality
    ∧ g'.location = g.location ∧ g'.authorId = g.authorId
    ∧ g'.timestamp = g.timestamp ∧ g'.status = g.status
    ∧ g'.imageUrl = g.imageUrl ∧ g'.updatedAt = g.updatedAt

/-- Equality of all comment fields except the `upvotes` counter. -/
def cFrameEq (c c' : Comment) : Prop :=
  c'.id = c.id ∧ c'.grievanceId = c.grievanceId ∧ c'.authorId = c.authorId
    ∧ c'.text = c.text ∧ c'.timestamp = c.timestamp

/-- Whether the first character list is an initial segment of the second. -/
def leadsWith : List Char → List Char → Bool
  | [], _ => true
  | _ :: _, [] => false
  | c :: p, d :: s => c == d && leadsWith p s

/-- Whether the first character list occurs contiguously in the second. -/
def occursIn (ndl : List Char) : List Char → Bool
  | [] => leadsWith ndl []
  | c :: t => leadsWith ndl (c :: t) || occursIn ndl t

/-- Case-insensitive substring containment of strings: the needle occurs in
the haystack after lower-casing both. -/
def ciOccurs (needle hay : String) : Bool :=
  occursIn (needle.data.map lowerChar) (hay.data.map lowerChar)

/-- A character that `LIKE` treats literally: not `%`, `_` or backslash. -/
def plainChar (c : Char) : Bool := !(c == '%') && !(c == '_') && !(c == '\\')

/-- A search string free of `LIKE` pattern and escape characters. -/
def noWildcards (s : String) : Bool := s.data.all plainChar

/-- Modelled from the spec: the filter predicate as §4.3 words it (with the
empty-string and wildcard behavior amended) — a category / municipality /
status value that is absent, empty or the sentinel `all` imposes no
constraint, any other value requires field equality, and a non-empty search
value matches when it occurs case-insensitively in the title, the
description or the location. -/
def specMatchesFilters (f : Filters) (g : Grievance) : Bool :=
  (match f.category with
   | none => true
   | some c => if c = "" ∨ c = "all" then true else g.category == c)
  && (match f.municipality with
      | none => true
      | some m => if m = "" ∨ m = "all" then true else g.municipality == m)
  && (match f.status with
      | none => true
      | some s => if s = "" ∨ s = "all" then true else g.status.toStr == s)
  && (match f.authorId with
      | none => true
      | some a => if a = "" then true else g.authorId == a)
  && (match f.search with
      | none => true
      | some s =>
          if s = "" then true
          else
            ciOccurs s g.title || ciOccurs s g.description
              || (match g.location with
                  | some loc => ciOccurs s loc
                  | none => false))

/-! ### Concrete fixtures used as example inputs -/

/-- A citizen user. -/
def exUser : User := { id := "u1", username := "alice", utype := "citizen" }

/-- A pending grievance authored by `exUser`. -/
def exGrievance : Grievance :=
  { id := "g1", title := "Pothole on Main St", description := "Deep pothole",
    category := "roads", municipality := "m1", location := some "Main St",
    authorId := "u1", timestamp := 1000, upvotes := 0, downvotes := 0,
    status := GStatus.pending, imageUrl := none, updatedAt := 1000 }

/-- A database with one user and one grievance, and no votes. -/
def exDb : Db := { users := [exUser], grievances := [exGrievance], comments := [], userVotes := [] }

/-- A database with one user and no comments. -/
def exDbNoComment : Db := { users := [exUser], grievances := [], comments := [], userVotes := [] }

/-- The urgent grievance of the priority-score scenario: 5 up, 2 down,
created at time 0. -/
def exUrgent : Grievance :=
  { id := "g2", title := "t", description := "d", category := "c",
    municipality := "m", location := none, authorId := "u1", timestamp := 0,
    upvotes := 5, downvotes := 2, status := GStatus.urgent, imageUrl := none, updatedAt := 0 }

/-- Grievance with net votes 5. -/
def exG5 : Grievance :=
  { id := "a", title := "t", description := "d", category := "c",
    municipality := "m", location := none, authorId := "u1", timestamp := 0,
    upvotes := 5, downvotes := 0, status := GStatus.pending, imageUrl := none, updatedAt := 0 }

/-- Grievance with net votes -1. -/
def exGm1 : Grievance :=
  { id := "b", title := "t", description := "d", category := "c",
    municipality := "m", location := none, authorId := "u1", timestamp := 0,
    upvotes := 0, downvotes := 1, status := GStatus.pending, imageUrl := none, updatedAt := 0 }

/-- Grievance with net votes 3. -/
def exG3 : Grievance :=
  { id := "c", title := "t", description := "d", category := "c",
    municipality := "m", location := none, authorId := "u1", timestamp := 0,
    upvotes := 3, downvotes := 0, status := GStatus.pending, imageUrl := none, updatedAt := 0 }

/-- An existing `up` vote of `exUser` on `exGrievance`. -/
def exVote : UserVote :=
  { id := "v0", userId := "u1", grievanceId := some "g1", commentId := none,
    voteType := VoteType.up, timestamp := 500 }

/-- `exDb` with the vote `exVote` already recorded. -/
def exDbVoted : Db :=
  { users := [exUser], grievances := [exGrievance], comments := [], userVotes := [exVote] }

/-- First of two distinct grievances with identical sort keys (same
timestamp, net votes and status). -/
def exTieA : Grievance :=
  { id := "t1", title := "first", description := "d", category := "c",
    municipality := "m", location := none, authorId := "u1", timestamp := 400,
    upvotes := 0, downvotes := 0, status := GStatus.pending, imageUrl := none, updatedAt := 400 }

/-- Second of the two tied grievances: only id and title differ from
`exTieA`. -/
def exTieB : Grievance :=
  { id := "t2", title := "second", description := "d", category := "c",
    municipality := "m", location := none, authorId := "u1", timestamp := 400,
    upvotes := 0, downvotes := 0, status := GStatus.pending, imageUrl := none, updatedAt := 400 }

/-- A grievance whose title, description and location contain no underscore
or percent character. -/
def exPlain : Grievance :=
  { id := "p1", title := "x", description := "y", category := "roads",
    municipality := "m1", location := none, authorId := "u1", timestamp := 0,
    upvotes := 0, downvotes := 0, status := GStatus.pending, imageUrl := none, updatedAt := 0 }

/-! ### List helper lemmas -/

theorem find?_map_pred {α : Type} (q : α → Bool) (f : α → α) (h : ∀ a, q (f a) = q a)
    (l : List α) : (l.map f).find? q = (l.find? q).map f := by
  induction l with
  | nil => rfl
  | cons a t ih =>
      simp only [List.map_cons, List.find?_cons, h a]
      cases q a <;> simp [ih]

theorem filter_map_pred {α : Type} (q : α → Bool) (f : α → α) (h : ∀ a, q (f a) = q a)
    (l : List α) : (l.map f).filter q = (l.filter q).map f := by
  induction l with
  | nil => rfl
  | cons a t ih =>
      simp only [List.map_cons, List.filter_cons, h a]
      cases q a <;> simp [ih]

theorem filter_map_pred_mem {α : Type} (q : α → Bool) (f : α → α) (l : List α)
    (h : ∀ a ∈ l, q (f a) = q a) : (l.map f).filter q = (l.filter q).map f := by
  induction l with
  | nil => rfl
  | cons a t ih =>
      simp only [List.map_cons, List.filter_cons, h a (List.mem_cons_self a t)]
      cases q a <;> simp [ih (fun b hb => h b (List.mem_cons_of_mem a hb))]

theorem find?_filter_not_self {α : Type} (p : α → Bool) (l : List α) :
    (l.filter (fun a => !p a)).find? p = none := by
  rw [List.find?_eq_none]
  intro x hx
  have h2 := (List.mem_filter.mp hx).2
  simp only [Bool.not_eq_true'] at h2
  simp [h2]

theorem filter_filter_not_mem {α : Type} (p q : α → Bool) (l : List α)
    (h : ∀ a ∈ l, q a = true → p a = false) :
    (l.filter (fun a => !p a)).filter q = l.filter q := by
  rw [List.filter_filter]
  apply List.filter_congr
  intro a ha
  cases hq : q a
  · simp
  · simp [h a ha hq]

/-! ### Vote store lemmas -/

theorem voteMatches_g (uid gid : String) (v : UserVote) :
    voteMatches uid (some gid) none v = (v.userId == uid && v.grievanceId == some gid) := by
  simp [voteMatches]

theorem voteMatches_c (uid cid : String) (v : UserVote) :
    voteMatches uid none (some cid) v = (v.userId == uid && v.commentId == some cid) := by
  simp [voteMatches]

theorem voteMatches_set (uid : String) (gid cid : Option String) (k : VoteType) (now : Int)
    (v : UserVote) :
    voteMatches uid gid cid { v with voteType := k, timestamp := now } = voteMatches uid gid cid v := rfl

theorem getGrievance_eq_some {db : Db} {gid : String} {g0 : Grievance} {au : Option String}
    (hg : getGrievance db gid = some (g0, au)) :
    db.grievances.find? (fun g => g.id == gid) = some g0
    ∧ (g0.id == gid) = true
    ∧ au = (db.users.find? (fun u => u.id == g0.authorId)).map (fun u => u.username) := by
  unfold getGrievance at hg
  obtain ⟨g1, hfe, hj⟩ := Option.map_eq_some'.mp hg
  have h1 := congrArg Prod.fst hj
  have h2 := congrArg Prod.snd hj
  simp only at h1 h2
  subst h1
  have hp := List.find?_some hfe
  exact ⟨hfe, hp, h2.symm⟩

theorem createOrUpdateVote_insert (db : Db) (uid gid : String) (k : VoteType)
    (newId : String) (now : Int)
    (hnone : getUserVote db uid (some gid) none = none)
    (huser : db.users.any (fun u => u.id == uid) = true)
    (hgr : db.grievances.any (fun gr => gr.id == gid) = true) :
    createOrUpdateVote db { userId := uid, grievanceId := some gid, voteType := k } newId now
      = .ok (some ⟨newId, uid, some gid, none, k, now⟩,
             { db with userVotes := db.userVotes ++ [⟨newId, uid, some gid, none, k, now⟩] }) := by
  have h1 : (db.userVotes.any fun r => r.userId == uid && r.grievanceId == some gid) = false := by
    rw [List.any_eq_false]
    intro v hv
    have h := List.find?_eq_none.mp hnone v hv
    rw [voteMatches_g] at h
    simpa using h
  simp [createOrUpdateVote, insertVoteRow, h1, huser, hgr]

theorem createOrUpdateVote_conflict (db : Db) (uid gid : String) (k : VoteType)
    (newId : String) (now : Int) (v : UserVote)
    (hsome : getUserVote db uid (some gid) none = some v) :
    createOrUpdateVote db { userId := uid, grievanceId := some gid, voteType := k } newId now
      = .ok (((db.userVotes.map (fun r =>
                if upsertFallbackPred { userId := uid, grievanceId := some gid, voteType := k } r
                then { r with voteType := k, timestamp := now } else r)).filter
                  (upsertFallbackPred { userId := uid, grievanceId := some gid, voteType := k })).head?,
             { db with userVotes := db.userVotes.map (fun r =>
                if upsertFallbackPred { userId := uid, grievanceId := some gid, voteType := k } r
                then { r with voteType := k, timestamp := now } else r) }) := by
  have hmem := List.mem_of_find?_eq_some hsome
  have hpv := List.find?_some hsome
  rw [voteMatches_g] at hpv
  have h1 : (db.userVotes.any fun r => r.userId == uid && r.grievanceId == some gid) = true :=
    List.any_eq_true.mpr ⟨v, hmem, hpv⟩
  have hins : insertVoteRow db { userId := uid, grievanceId := some gid, voteType := k } newId now
      = .error .uniqueViolation := by
    simp [insertVoteRow, h1]
  simp only [createOrUpdateVote, hins]

theorem upsertFallbackPred_g (uid gid : String) (k : VoteType) :
    upsertFallbackPred { userId := uid, grievanceId := some gid, voteType := k }
      = fun r => r.userId == uid && r.grievanceId == some gid := rfl

theorem upsertFallbackPred_c (uid cid : String) (k : VoteType) :
    upsertFallbackPred { userId := uid, commentId := some cid, voteType := k }
      = fun r => r.userId == uid && r.commentId == some cid := rfl

theorem updateVoteCounts_g_parts (db : Db) (gid : String) :
    (updateVoteCounts db (some gid) none).userVotes = db.userVotes
    ∧ (updateVoteCounts db (some gid) none).users = db.users
    ∧ (updateVoteCounts db (some gid) none).comments = db.comments
    ∧ (updateVoteCounts db (some gid) none).grievances
        = db.grievances.map (fun gr => if gr.id == gid
            then { gr with upvotes := (countVG db.userVotes gid .up : Int),
                           downvotes := (countVG db.userVotes gid .down : Int) } else gr) :=
  ⟨rfl, rfl, rfl, rfl⟩

theorem updateVoteCounts_c_parts (db : Db) (cid : String) :
    (updateVoteCounts db none (some cid)).userVotes = db.userVotes
    ∧ (updateVoteCounts db none (some cid)).users = db.users
    ∧ (updateVoteCounts db none (some cid)).grievances = db.grievances
    ∧ (updateVoteCounts db none (some cid)).comments
        = db.comments.map (fun cm => if cm.id == cid
            then { cm with upvotes := (countVC db.userVotes cid : Int) } else cm) :=
  ⟨rfl, rfl, rfl, rfl⟩

theorem getGrievance_updateVoteCounts (db : Db) (gid : String) (g0 : Grievance) (au : Option String)
    (hg : getGrievance db gid = some (g0, au)) :
    getGrievance (updateVoteCounts db (some gid) none) gid
      = some ({ g0 with upvotes := (countVG db.userVotes gid .up : Int),
                        downvotes := (countVG db.userVotes gid .down : Int) }, au) := by
  obtain ⟨hfe, hid, hau⟩ := getGrievance_eq_some hg
  have hpres : ∀ g : Grievance, ((if g.id == gid
      then { g with upvotes := (countVG db.userVotes gid .up : Int),
                    downvotes := (countVG db.userVotes gid .down : Int) } else g).id == gid)
      = (g.id == gid) := by
    intro g
    split <;> rfl
  have hideq : g0.id = gid := by simpa using hid
  unfold getGrievance
  rw [(updateVoteCounts_g_parts db gid).2.2.2, find?_map_pred _ _ hpres, hfe]
  rw [(updateVoteCounts_g_parts db gid).2.1]
  simp [hideq, hau]

/-- C1: Toggle protocol of the grievance vote endpoint — for an
authenticated vote of kind `k` by user `uid` on an existing grievance, the
route answers 200; with no prior vote the result is a vote of kind `k`,
with a prior vote of the same kind the vote row is removed, and with a
prior vote of the other kind that same row (same id) is overwritten to `k`
with no second row; the counters are then recomputed and the response
reports the updated upvotes, downvotes and the caller's resulting vote. -/
theorem grievanceVote_toggle_protocol (db : Db) (uid gid : String) (k : VoteType)
    (newId : String) (now : Int) (g0 : Grievance) (au : Option String)
    (hg : getGrievance db gid = some (g0, au))
    (huser : db.users.any (fun u => u.id == uid) = true)
    (huniq : (db.userVotes.filter (voteMatches uid (some gid) none)).length ≤ 1) :
    ∃ up down uv db2,
      grievanceVoteRoute db uid gid k.toStr newId now = (.ok up down uv, db2)
      ∧ (∃ g2 au2, getGrievance db2 gid = some (g2, au2)
           ∧ g2.upvotes = (countVG db2.userVotes gid .up : Int)
           ∧ g2.downvotes = (countVG db2.userVotes gid .down : Int)
           ∧ up = g2.upvotes ∧ down = g2.downvotes)
      ∧ uv = (getUserVote db2 uid (some gid) none).map (fun v => v.voteType)
      ∧ (match getUserVote db uid (some gid) none with
         | none =>
             ∃ v', getUserVote db2 uid (some gid) none = some v' ∧ v'.voteType = k
         | some v =>
             if v.voteType = k then
               getUserVote db2 uid (some gid) none = none
             else
               ∃ v', getUserVote db2 uid (some gid) none = some v'
                 ∧ v'.id = v.id ∧ v'.voteType = k
                 ∧ (db2.userVotes.filter (voteMatches uid (some gid) none)).length = 1) := by
  have hval : (!(k.toStr == "up" || k.toStr == "down")) = false := by cases k <;> rfl
  have hk : (if k.toStr == "up" then VoteType.up else VoteType.down) = k := by cases k <;> rfl
  obtain ⟨hfe, hid, hau⟩ := getGrievance_eq_some hg
  have hgrany : db.grievances.any (fun gr => gr.id == gid) = true :=
    List.any_eq_true.mpr ⟨g0, List.mem_of_find?_eq_some hfe, hid⟩
  cases hex : getUserVote db uid (some gid) none with
  | none =>
      have hcu := createOrUpdateVote_insert db uid gid k newId now hex huser hgrany
      have hstep : grievanceVoteStep db uid gid k newId now
          = .ok { db with userVotes := db.userVotes ++ [⟨newId, uid, some gid, none, k, now⟩] } := by
        simp only [grievanceVoteStep, hex, hcu]
        rfl
      set db1 : Db := { db with userVotes := db.userVotes ++ [⟨newId, uid, some gid, none, k, now⟩] }
        with hdb1
      set db2 : Db := updateVoteCounts db1 (some gid) none with hdb2
      have hg1 : getGrievance db1 gid = some (g0, au) := hg
      have hgg2 := getGrievance_updateVoteCounts db1 gid g0 au hg1
      have hvotes2 : db2.userVotes = db1.userVotes := (updateVoteCounts_g_parts db1 gid).1
      have hprow : voteMatches uid (some gid) none ⟨newId, uid, some gid, none, k, now⟩ = true := by
        simp [voteMatches]
      have hguv2 : getUserVote db2 uid (some gid) none
          = some ⟨newId, uid, some gid, none, k, now⟩ := by
        unfold getUserVote at hex ⊢
        rw [hvotes2, hdb1]
        rw [List.find?_append, hex]
        simp [hprow]
      refine ⟨_, _, _, db2,
        ?_,
        ⟨{ g0 with upvotes := (countVG db1.userVotes gid .up : Int),
                   downvotes := (countVG db1.userVotes gid .down : Int) }, au, hgg2,
          by rw [hvotes2], by rw [hvotes2], rfl, rfl⟩,
        rfl,
        ?_⟩
      · simp only [grievanceVoteRoute, hval, Bool.false_eq_true, if_false, hk, hg, hstep]
        rw [hgg2]
        rfl
      · simp only
        exact ⟨_, hguv2, rfl⟩
  | some v =>
      by_cases hvk : v.voteType = k
      · have hbeq : (v.voteType == k) = true := by simp [hvk]
        have hstep : grievanceVoteStep db uid gid k newId now
            = .ok { db with userVotes := db.userVotes.filter (fun vv => !voteMatches uid (some gid) none vv) } := by
          simp only [grievanceVoteStep, hex, hbeq, if_true]
          rfl
        set db1 : Db := { db with userVotes := db.userVotes.filter (fun vv => !voteMatches uid (some gid) none vv) } with hdb1
        set db2 : Db := updateVoteCounts db1 (some gid) none with hdb2
        have hg1 : getGrievance db1 gid = some (g0, au) := hg
        have hgg2 := getGrievance_updateVoteCounts db1 gid g0 au hg1
        have hvotes2 : db2.userVotes = db1.userVotes := (updateVoteCounts_g_parts db1 gid).1
        have hguv2 : getUserVote db2 uid (some gid) none = none := by
          unfold getUserVote
          rw [hvotes2, hdb1]
          exact find?_filter_not_self _ _
        refine ⟨_, _, _, db2,
          ?_,
          ⟨{ g0 with upvotes := (countVG db1.userVotes gid .up : Int),
                     downvotes := (countVG db1.userVotes gid .down : Int) }, au, hgg2,
            by rw [hvotes2], by rw [hvotes2], rfl, rfl⟩,
          rfl,
          ?_⟩
        · simp only [grievanceVoteRoute, hval, Bool.false_eq_true, if_false, hk, hg, hstep]
          rw [hgg2]
          rfl
        · simp only [hvk, if_pos]
          exact hguv2
      · have hbeq : (v.voteType == k) = false := by simp [hvk]
        have hcu := createOrUpdateVote_conflict db uid gid k newId now v hex
        have hstep : grievanceVoteStep db uid gid k newId now
            = .ok { db with userVotes := db.userVotes.map (fun r => if upsertFallbackPred { userId := uid, grievanceId := some gid, voteType := k } r then { r with voteType := k, timestamp := now } else r) } := by
          simp only [grievanceVoteStep, hex, hbeq, Bool.false_eq_true, if_false, hcu]
          rfl
        have hpeq : ∀ r, upsertFallbackPred { userId := uid, grievanceId := some gid, voteType := k } r
            = voteMatches uid (some gid) none r := by
          intro r
          rw [upsertFallbackPred_g, voteMatches_g]
        have hqpres : ∀ r, voteMatches uid (some gid) none
            ((fun r => if upsertFallbackPred { userId := uid, grievanceId := some gid, voteType := k } r
                then { r with voteType := k, timestamp := now } else r) r)
            = voteMatches uid (some gid) none r := by
          intro r
          by_cases h : upsertFallbackPred { userId := uid, grievanceId := some gid, voteType := k } r = true
          · simp only [h, if_true]
            exact voteMatches_set uid (some gid) none k now r
          · simp only [h]
            simp [h]
        set db1 : Db := { db with userVotes := db.userVotes.map (fun r => if upsertFallbackPred { userId := uid, grievanceId := some gid, voteType := k } r then { r with voteType := k, timestamp := now } else r) } with hdb1
        set db2 : Db := updateVoteCounts db1 (some gid) none with hdb2
        have hg1 : getGrievance db1 gid = some (g0, au) := hg
        have hgg2 := getGrievance_updateVoteCounts db1 gid g0 au hg1
        have hvotes2 : db2.userVotes = db1.userVotes := (updateVoteCounts_g_parts db1 gid).1
        have hpv : voteMatches uid (some gid) none v = true := List.find?_some hex
        have hfv : (if upsertFallbackPred { userId := uid, grievanceId := some gid, voteType := k } v
            then { v with voteType := k, timestamp := now } else v)
            = { v with voteType := k, timestamp := now } := by
          rw [hpeq v, hpv]
          rfl
        have hguv2 : getUserVote db2 uid (some gid) none
            = some { v with voteType := k, timestamp := now } := by
          unfold getUserVote at hex ⊢
          rw [hvotes2, hdb1]
          rw [find?_map_pred _ _ hqpres, hex]
          exact congrArg some hfv
        have hcount : (db2.userVotes.filter (voteMatches uid (some gid) none)).length = 1 := by
          have h1 : (db2.userVotes.filter (voteMatches uid (some gid) none)).length
              = (db.userVotes.filter (voteMatches uid (some gid) none)).length := by
            rw [hvotes2, hdb1]
            rw [filter_map_pred _ _ hqpres, List.length_map]
          have h2 : 0 < (db.userVotes.filter (voteMatches uid (some gid) none)).length := by
            have : v ∈ db.userVotes.filter (voteMatches uid (some gid) none) :=
              List.mem_filter.mpr ⟨List.mem_of_find?_eq_some hex, hpv⟩
            exact List.length_pos.mpr (List.ne_nil_of_mem this)
          omega
        refine ⟨_, _, _, db2,
          ?_,
          ⟨{ g0 with upvotes := (countVG db1.userVotes gid .up : Int),
                     downvotes := (countVG db1.userVotes gid .down : Int) }, au, hgg2,
            by rw [hvotes2], by rw [hvotes2], rfl, rfl⟩,
          rfl,
          ?_⟩
        · simp only [grievanceVoteRoute, hval, Bool.false_eq_true, if_false, hk, hg, hstep]
          rw [hgg2]
          rfl
        · simp only [hvk, if_neg]
          exact ⟨_, hguv2, rfl, rfl, hcount⟩

/-- Witness for C1: the toggle theorem applied to a concrete database with
one user, one grievance and no votes, voting `up`. -/
theorem grievanceVote_toggle_protocol_witness :
    getGrievance exDb "g1" = some (exGrievance, some "alice")
    ∧ (exDb.users.any (fun u => u.id == "u1") = true)
    ∧ (exDb.userVotes.filter (voteMatches "u1" (some "g1") none)).length ≤ 1
    ∧ ∃ up down uv db2,
        grievanceVoteRoute exDb "u1" "g1" VoteType.up.toStr "v1" 2000 = (.ok up down uv, db2) :=
  ⟨by decide, by decide, by decide, by
    obtain ⟨up, down, uv, db2, h, -⟩ :=
      grievanceVote_toggle_protocol exDb "u1" "g1" .up "v1" 2000 exGrievance (some "alice")
        (by decide) (by decide) (by decide)
    exact ⟨up, down, uv, db2, h⟩⟩

/-- C3: The total returned by the grievance query is the count of rows
matching the filter predicate, independent of limit and offset: any two
choices of limit/offset give the same total, and that total is the number
of grievances satisfying the filters ignoring pagination. -/
theorem getGrievances_total_pagination_invariant :
    ∀ (db : Db) (f : Filters) (l1 o1 l2 o2 : Option Nat),
      (getGrievances db { f with limit := l1, offset := o1 }).2
        = (getGrievances db { f with limit := l2, offset := o2 }).2
      ∧ (getGrievances db f).2 = (db.grievances.filter (matchesFilters f)).length := by
  intro db f l1 o1 l2 o2
  exact ⟨rfl, rfl⟩

/-- C4: The priority score equals
max(0, (upvotes − downvotes) · urgentMultiplier − agePenalty) with
urgentMultiplier 2 exactly for the urgent status and agePenalty
floor(ageInHours / 24) · 0.1; the 5-up/2-down urgent grievance aged 48h
scores 5.8, and any grievance with non-positive net votes scores 0
whatever its urgency and (non-negative) age. -/
theorem getPriorityScore_spec :
    (∀ (g : Grievance) (now : Int),
        getPriorityScore g now =
          max 0 (((g.upvotes : ℚ) - (g.downvotes : ℚ)) *
              (if g.status = GStatus.urgent then 2 else 1) -
            (⌊(((now : ℚ) - (g.timestamp : ℚ)) / (1000 * 60 * 60)) / 24⌋ : ℚ) * (1 / 10)))
    ∧ getPriorityScore exUrgent (48 * 3600000) = 29 / 5
    ∧ (∀ (g : Grievance) (now : Int),
        g.upvotes - g.downvotes ≤ 0 → g.timestamp ≤ now → getPriorityScore g now = 0) := by
  refine ⟨fun g now => ?_, ?_, fun g now hnet hts => ?_⟩
  · simp [getPriorityScore]
  · norm_num [getPriorityScore, exUrgent]
  · have hb : (g.upvotes : ℚ) - (g.downvotes : ℚ) ≤ 0 := by
      exact_mod_cast sub_nonpos.mpr (by omega : g.upvotes ≤ g.downvotes)
    have hm : (0 : ℚ) ≤ (if g.status == GStatus.urgent then (2 : ℚ) else 1) := by
      split <;> norm_num
    have hage : (0 : ℚ) ≤ ((now : ℚ) - (g.timestamp : ℚ)) / (1000 * 60 * 60) := by
      apply div_nonneg
      · simp only [sub_nonneg]
        exact_mod_cast hts
      · norm_num
    have hfloor : (0 : ℚ) ≤ (⌊(((now : ℚ) - (g.timestamp : ℚ)) / (1000 * 60 * 60)) / 24⌋ : ℚ) := by
      have h0 : (0 : ℤ) ≤ ⌊(((now : ℚ) - (g.timestamp : ℚ)) / (1000 * 60 * 60)) / 24⌋ :=
        Int.floor_nonneg.mpr (by positivity)
      exact_mod_cast h0
    have hmul : ((g.upvotes : ℚ) - (g.downvotes : ℚ))
        * (if g.status == GStatus.urgent then (2 : ℚ) else 1) ≤ 0 :=
      mul_nonpos_iff.mpr (Or.inr ⟨hb, hm⟩)
    simp only [getPriorityScore]
    rw [max_eq_left]
    linarith

/-- Witness for C4: the non-positive-net clause applied to the urgent
grievance with 1 up / 3 down at time 999999. -/
theorem getPriorityScore_spec_witness :
    ({ exUrgent with upvotes := 1, downvotes := 3 } : Grievance).upvotes
        - ({ exUrgent with upvotes := 1, downvotes := 3 } : Grievance).downvotes ≤ 0
    ∧ ({ exUrgent with upvotes := 1, downvotes := 3 } : Grievance).timestamp ≤ 999999
    ∧ getPriorityScore { exUrgent with upvotes := 1, downvotes := 3 } 999999 = 0 :=
  ⟨by decide, by decide,
    getPriorityScore_spec.2.2 { exUrgent with upvotes := 1, downvotes := 3 } 999999
      (by decide) (by decide)⟩

/-- C7 counterexample: the grievance's author, a citizen (not an admin),
PATCHes a status change and the change is applied — refuting the claim that
status changes are applied only for admin callers. -/
theorem patch_status_counterexample :
    ((patchGrievanceRoute exDb (some ("u1", "citizen")) "g1"
        { status := some GStatus.resolved } 5).2.grievances.map (fun g => g.status))
      = [GStatus.resolved]
    ∧ exUser.utype ≠ "admin" := by
  constructor
  · rfl
  · decide

/-- C7 amended: a PATCH carrying a status change is applied whenever the
caller is an admin or the grievance's author; a caller that is neither
receives Forbidden and the database is unchanged. -/
theorem patch_status_author_or_admin (db : Db) (uid utype gid : String)
    (u : GrievanceUpdates) (now : Int) (g : Grievance) (au : Option String)
    (hg : getGrievance db gid = some (g, au)) :
    ((utype = "admin" ∨ g.authorId = uid) →
        ∃ g', (patchGrievanceRoute db (some (uid, utype)) gid u now).1 = .okP (some g')
          ∧ g'.status = u.status.getD g.status)
    ∧ ((utype ≠ "admin" ∧ g.authorId ≠ uid) →
        patchGrievanceRoute db (some (uid, utype)) gid u now = (.forbidden, db)) := by
  have hfind : db.grievances.find? (fun g' => g'.id == gid) = some g :=
    (getGrievance_eq_some hg).1
  constructor
  · intro hok
    have hcond : (!(g.authorId == uid) && !(utype == "admin")) = false := by
      rcases hok with h | h <;> simp [h]
    unfold patchGrievanceRoute updateGrievance
    rw [hg]
    simp only [hcond, Bool.false_eq_true, if_false, hfind, Option.map_some]
    exact ⟨applyUpdates g u now, rfl, rfl⟩
  · intro hboth
    have hcond : (!(g.authorId == uid) && !(utype == "admin")) = true := by
      simp [hboth.1, hboth.2]
    unfold patchGrievanceRoute
    rw [hg]
    simp only [hcond, if_true]

/-- Witness for the amended C7: an admin session changes the status of the
concrete grievance to resolved. -/
theorem patch_status_author_or_admin_witness :
    getGrievance exDb "g1" = some (exGrievance, some "alice")
    ∧ ∃ g', (patchGrievanceRoute exDb (some ("u2", "admin")) "g1"
          { status := some GStatus.resolved } 5).1 = .okP (some g')
        ∧ g'.status = GStatus.resolved := by
  refine ⟨by decide, ?_⟩
  obtain ⟨g', h1, h2⟩ :=
    (patch_status_author_or_admin exDb "u2" "admin" "g1"
      { status := some GStatus.resolved } 5 exGrievance (some "alice") (by decide)).1
      (Or.inl rfl)
  exact ⟨g', h1, h2.trans rfl⟩

/-- C9: voting on an absent comment — the route performs no existence
check, the insert hits the foreign-key constraint (code 23503, not the
handled 23505), the error propagates and the route answers the generic 500
rather than a structured 404; no vote row is recorded (the database is
unchanged). -/
theorem commentVote_absent_comment_500 :
    commentVoteRoute exDbNoComment "u1" "c9" "up" "v1" 100
      = (CVoteResult.serverError, exDbNoComment)
    ∧ insertVoteRow exDbNoComment
        { userId := "u1", commentId := some "c9", voteType := .up } "v1" 100
      = .error .fkViolation := by
  constructor
  · decide
  · rfl

theorem insertVoteRow_unique_cases (db : Db) (v : InsertUserVote) (newId : String) (now : Int)
    (h : insertVoteRow db v newId now = .error .uniqueViolation) :
    ∃ old ∈ db.userVotes, upsertFallbackPred v old = true := by
  unfold insertVoteRow at h
  split at h
  · exact absurd h (by simp)
  · split at h
    · rename_i hcheck hcond
      split at hcond
      · rename_i g vg
        obtain ⟨old, hmem, hp⟩ := List.any_eq_true.mp hcond
        refine ⟨old, hmem, ?_⟩
        unfold upsertFallbackPred
        rw [vg]
        exact hp
      · exact absurd hcond (by simp)
    · split at h
      · rename_i hcheck hu1 hcond
        have hgnone : v.grievanceId = none := by
          simp only [Bool.not_eq_true', Bool.not_eq_false] at hcheck
          cases hvc2 : v.commentId with
          | none =>
              rw [hvc2] at hcond
              exact absurd hcond (by simp)
          | some c =>
              rw [hvc2] at hcheck
              simp only [Option.isNone_some, Bool.and_false, Bool.false_or] at hcheck
              cases hvg2 : v.grievanceId with
              | none => rfl
              | some g =>
                  rw [hvg2] at hcheck
                  simp at hcheck
        split at hcond
        · rename_i c vc
          obtain ⟨old, hmem, hp⟩ := List.any_eq_true.mp hcond
          refine ⟨old, hmem, ?_⟩
          unfold upsertFallbackPred
          rw [hgnone, vc]
          exact hp
        · exact absurd hcond (by simp)
      · split at h
        · exact absurd h (by simp)
        · split at h
          · exact absurd h (by simp)
          · split at h
            · exact absurd h (by simp)
            · exact absurd h (by simp)

/-- C8: Conflict recovery in vote creation — whenever the insert fails
with a uniqueness violation (a vote row for that user and target already
exists), `createOrUpdateVote` recovers by updating an existing row's kind
to the requested kind, returns that row, surfaces no error, and produces
no duplicate (row count and per-target row count are unchanged). -/
theorem createOrUpdateVote_conflict_recovery (db : Db) (v : InsertUserVote)
    (newId : String) (now : Int)
    (hfail : insertVoteRow db v newId now = .error .uniqueViolation) :
    ∃ r db', createOrUpdateVote db v newId now = .ok (some r, db')
      ∧ (∃ old ∈ db.userVotes, r = { old with voteType := v.voteType, timestamp := now })
      ∧ r.voteType = v.voteType
      ∧ db'.userVotes.length = db.userVotes.length
      ∧ (db'.userVotes.filter (upsertFallbackPred v)).length
          = (db.userVotes.filter (upsertFallbackPred v)).length := by
  obtain ⟨old0, hmem0, hp0⟩ := insertVoteRow_unique_cases db v newId now hfail
  have hpres : ∀ r, upsertFallbackPred v
      ((fun r => if upsertFallbackPred v r
          then { r with voteType := v.voteType, timestamp := now } else r) r)
      = upsertFallbackPred v r := by
    intro r
    by_cases h : upsertFallbackPred v r = true
    · simp only [h, if_true]
      exact h
    · simp [h]
  have hfm := filter_map_pred (upsertFallbackPred v)
    (fun r => if upsertFallbackPred v r
        then { r with voteType := v.voteType, timestamp := now } else r) hpres db.userVotes
  have hmemf : old0 ∈ db.userVotes.filter (upsertFallbackPred v) :=
    List.mem_filter.mpr ⟨hmem0, hp0⟩
  cases hl : db.userVotes.filter (upsertFallbackPred v) with
  | nil =>
      rw [hl] at hmemf
      cases hmemf
  | cons a t =>
      have hane : a ∈ db.userVotes.filter (upsertFallbackPred v) := by
        rw [hl]
        exact List.mem_cons_self a t
      have hamem : a ∈ db.userVotes := (List.mem_filter.mp hane).1
      have hap : upsertFallbackPred v a = true := (List.mem_filter.mp hane).2
      refine ⟨{ a with voteType := v.voteType, timestamp := now },
        { db with userVotes := db.userVotes.map (fun r => if upsertFallbackPred v r
            then { r with voteType := v.voteType, timestamp := now } else r) },
        ?_, ⟨a, hamem, rfl⟩, rfl, by simp, ?_⟩
      · simp only [createOrUpdateVote, hfail]
        rw [hfm, hl]
        simp only [List.map_cons, List.head?_cons]
        rw [hap]
        simp
      · rw [hfm, hl]
        simp

theorem gFrameEq_refl (g : Grievance) : gFrameEq g g :=
  ⟨rfl, rfl, rfl, rfl, rfl, rfl, rfl, rfl, rfl, rfl, rfl⟩

theorem cFrameEq_refl (c : Comment) : cFrameEq c c :=
  ⟨rfl, rfl, rfl, rfl, rfl⟩

theorem forall₂_map_self {α : Type} {R : α → α → Prop} (f : α → α) (l : List α)
    (h : ∀ x ∈ l, R x (f x)) : List.Forall₂ R l (l.map f) := by
  induction l with
  | nil => exact List.Forall₂.nil
  | cons a t ih =>
      exact List.Forall₂.cons (h a (List.mem_cons_self a t))
        (ih (fun b hb => h b (List.mem_cons_of_mem a hb)))

theorem insertVoteRow_tables (db : Db) (v : InsertUserVote) (newId : String) (now : Int)
    (r : UserVote) (db' : Db) (h : insertVoteRow db v newId now = .ok (r, db')) :
    db'.grievances = db.grievances ∧ db'.comments = db.comments ∧ db'.users = db.users := by
  unfold insertVoteRow at h
  split at h
  · exact absurd h (by simp)
  · split at h
    · exact absurd h (by simp)
    · split at h
      · exact absurd h (by simp)
      · split at h
        · exact absurd h (by simp)
        · split at h
          · exact absurd h (by simp)
          · split at h
            · exact absurd h (by simp)
            · injection h with hh
              have h2 := congrArg Prod.snd hh
              simp only at h2
              rw [← h2]
              exact ⟨rfl, rfl, rfl⟩

theorem createOrUpdateVote_tables (db : Db) (v : InsertUserVote) (newId : String) (now : Int)
    (ro : Option UserVote) (db' : Db) (h : createOrUpdateVote db v newId now = .ok (ro, db')) :
    db'.grievances = db.grievances ∧ db'.comments = db.comments ∧ db'.users = db.users := by
  unfold createOrUpdateVote at h
  split at h
  · rename_i row db1 heq
    injection h with hh
    have h2 := congrArg Prod.snd hh
    simp only at h2
    rw [← h2]
    exact insertVoteRow_tables db v newId now row db1 heq
  · injection h with hh
    have h2 := congrArg Prod.snd hh
    simp only at h2
    rw [← h2]
    exact ⟨rfl, rfl, rfl⟩
  · exact absurd h (by simp)

theorem grievanceVoteStep_tables (db : Db) (uid gid : String) (k : VoteType)
    (newId : String) (now : Int) (db1 : Db)
    (h : grievanceVoteStep db uid gid k newId now = .ok db1) :
    db1.grievances = db.grievances ∧ db1.comments = db.comments ∧ db1.users = db.users := by
  unfold grievanceVoteStep at h
  split at h
  · split at h
    · injection h with hh
      rw [← hh]
      exact ⟨rfl, rfl, rfl⟩
    · cases hco : createOrUpdateVote db
          { userId := uid, grievanceId := some gid, voteType := k } newId now with
      | ok p =>
          rw [hco] at h
          injection h with hh
          rw [← hh]
          exact createOrUpdateVote_tables db _ newId now p.1 p.2 hco
      | error e =>
          rw [hco] at h
          exact absurd h (by simp [Except.map])
  · cases hco : createOrUpdateVote db
        { userId := uid, grievanceId := some gid, voteType := k } newId now with
    | ok p =>
        rw [hco] at h
        injection h with hh
        rw [← hh]
        exact createOrUpdateVote_tables db _ newId now p.1 p.2 hco
    | error e =>
        rw [hco] at h
        exact absurd h (by simp [Except.map])

theorem commentVoteStep_tables (db : Db) (uid cid : String) (k : VoteType)
    (newId : String) (now : Int) (db1 : Db)
    (h : commentVoteStep db uid cid k newId now = .ok db1) :
    db1.grievances = db.grievances ∧ db1.comments = db.comments ∧ db1.users = db.users := by
  unfold commentVoteStep at h
  split at h
  · split at h
    · injection h with hh
      rw [← hh]
      exact ⟨rfl, rfl, rfl⟩
    · cases hco : createOrUpdateVote db
          { userId := uid, commentId := some cid, voteType := k } newId now with
      | ok p =>
          rw [hco] at h
          injection h with hh
          rw [← hh]
          exact createOrUpdateVote_tables db _ newId now p.1 p.2 hco
      | error e =>
          rw [hco] at h
          exact absurd h (by simp [Except.map])
  · cases hco : createOrUpdateVote db
        { userId := uid, commentId := some cid, voteType := k } newId now with
    | ok p =>
        rw [hco] at h
        injection h with hh
        rw [← hh]
        exact createOrUpdateVote_tables db _ newId now p.1 p.2 hco
    | error e =>
        rw [hco] at h
        exact absurd h (by simp [Except.map])

/-- Witness for C8: upserting a `down` vote over an existing `up` vote of
the same user on the same grievance recovers from the unique violation and
returns a `down` vote row. -/
theorem createOrUpdateVote_conflict_recovery_witness :
    insertVoteRow exDbVoted
        { userId := "u1", grievanceId := some "g1", voteType := VoteType.down } "v9" 900
      = .error .uniqueViolation
    ∧ ∃ r db', createOrUpdateVote exDbVoted
          { userId := "u1", grievanceId := some "g1", voteType := VoteType.down } "v9" 900
        = .ok (some r, db') ∧ r.voteType = VoteType.down := by
  refine ⟨rfl, ?_⟩
  obtain ⟨r, db', h1, -, h3, -, -⟩ :=
    createOrUpdateVote_conflict_recovery exDbVoted
      { userId := "u1", grievanceId := some "g1", voteType := VoteType.down } "v9" 900 rfl
  exact ⟨r, db', h1, h3⟩

/-- C10: Frame property of the vote operations — a grievance vote changes
no grievance field other than the two counters (in particular it never
bumps `updatedAt`) and leaves comments untouched; a comment vote changes
only comment `upvotes` and leaves grievances untouched; and every
`updateGrievance` call sets `updatedAt` to the current time. -/
theorem vote_ops_frame :
    (∀ (db : Db) (uid gid voteType newId : String) (now : Int),
        List.Forall₂ gFrameEq db.grievances
          (grievanceVoteRoute db uid gid voteType newId now).2.grievances
        ∧ (grievanceVoteRoute db uid gid voteType newId now).2.comments = db.comments)
    ∧ (∀ (db : Db) (uid cid voteType newId : String) (now : Int),
        List.Forall₂ cFrameEq db.comments
          (commentVoteRoute db uid cid voteType newId now).2.comments
        ∧ (commentVoteRoute db uid cid voteType newId now).2.grievances = db.grievances)
    ∧ (∀ (db : Db) (gid : String) (u : GrievanceUpdates) (now : Int) (g' : Grievance),
        (updateGrievance db gid u now).1 = some g' → g'.updatedAt = now) := by
  refine ⟨fun db uid gid voteType newId now => ?_, fun db uid cid voteType newId now => ?_,
    fun db gid u now g' h => ?_⟩
  · by_cases hv : (!(voteType == "up" || voteType == "down")) = true
    · simp only [grievanceVoteRoute, hv, if_true]
      exact ⟨List.forall₂_same.mpr (fun x _ => gFrameEq_refl x), trivial⟩
    · have hvf : (!(voteType == "up" || voteType == "down")) = false := by
        simpa using hv
      cases hgg : getGrievance db gid with
      | none =>
          simp only [grievanceVoteRoute, hvf, Bool.false_eq_true, if_false, hgg]
          exact ⟨List.forall₂_same.mpr (fun x _ => gFrameEq_refl x), trivial⟩
      | some p =>
          cases hst : grievanceVoteStep db uid gid
              (if voteType == "up" then VoteType.up else VoteType.down) newId now with
          | error e =>
              simp only [grievanceVoteRoute, hvf, Bool.false_eq_true, if_false, hgg, hst]
              exact ⟨List.forall₂_same.mpr (fun x _ => gFrameEq_refl x), trivial⟩
          | ok db1 =>
              obtain ⟨hgr1, hcm1, hus1⟩ := grievanceVoteStep_tables db uid gid _ newId now db1 hst
              simp only [grievanceVoteRoute, hvf, Bool.false_eq_true, if_false, hgg, hst]
              constructor
              · rw [(updateVoteCounts_g_parts db1 gid).2.2.2, hgr1]
                apply forall₂_map_self
                intro x _
                split
                · exact ⟨rfl, rfl, rfl, rfl, rfl, rfl, rfl, rfl, rfl, rfl, rfl⟩
                · exact gFrameEq_refl x
              · rw [(updateVoteCounts_g_parts db1 gid).2.2.1, hcm1]
  · by_cases hv : (!(voteType == "up" || voteType == "down")) = true
    · simp only [commentVoteRoute, hv, if_true]
      exact ⟨List.forall₂_same.mpr (fun x _ => cFrameEq_refl x), trivial⟩
    · have hvf : (!(voteType == "up" || voteType == "down")) = false := by
        simpa using hv
      cases hst : commentVoteStep db uid cid
          (if voteType == "up" then VoteType.up else VoteType.down) newId now with
      | error e =>
          simp only [commentVoteRoute, hvf, Bool.false_eq_true, if_false, hst]
          exact ⟨List.forall₂_same.mpr (fun x _ => cFrameEq_refl x), trivial⟩
      | ok db1 =>
          obtain ⟨hgr1, hcm1, hus1⟩ := commentVoteStep_tables db uid cid _ newId now db1 hst
          simp only [commentVoteRoute, hvf, Bool.false_eq_true, if_false, hst]
          constructor
          · rw [(updateVoteCounts_c_parts db1 cid).2.2.2, hcm1]
            apply forall₂_map_self
            intro x _
            split
            · exact ⟨rfl, rfl, rfl, rfl, rfl⟩
            · exact cFrameEq_refl x
          · rw [(updateVoteCounts_c_parts db1 cid).2.2.1, hgr1]
  · unfold updateGrievance at h
    obtain ⟨g0, -, h2⟩ := Option.map_eq_some'.mp h
    rw [← h2]
    rfl

theorem vote_ops_frame_witness :
    (updateGrievance exDb "g1" { title := some "T2" } 77).1
      = some (applyUpdates exGrievance { title := some "T2" } 77)
    ∧ (applyUpdates exGrievance { title := some "T2" } 77).updatedAt = 77 :=
  ⟨by decide, vote_ops_frame.2.2 exDb "g1" { title := some "T2" } 77
      (applyUpdates exGrievance { title := some "T2" } 77) (by decide)⟩

theorem insertVoteRow_ok_shape (db : Db) (v : InsertUserVote) (newId : String) (now : Int)
    (r : UserVote) (db' : Db) (h : insertVoteRow db v newId now = .ok (r, db')) :
    r = ⟨newId, v.userId, v.grievanceId, v.commentId, v.voteType, now⟩
    ∧ db' = { db with userVotes := db.userVotes ++ [r] } := by
  unfold insertVoteRow at h
  split at h
  · exact absurd h (by simp)
  · split at h
    · exact absurd h (by simp)
    · split at h
      · exact absurd h (by simp)
      · split at h
        · exact absurd h (by simp)
        · split at h
          · exact absurd h (by simp)
          · split at h
            · exact absurd h (by simp)
            · injection h with hh
              have h1 := congrArg Prod.fst hh
              have h2 := congrArg Prod.snd hh
              simp only at h1 h2
              subst h1
              exact ⟨rfl, h2.symm⟩

theorem createOrUpdateVote_votes (db : Db) (v : InsertUserVote) (newId : String) (now : Int)
    (ro : Option UserVote) (db' : Db)
    (h : createOrUpdateVote db v newId now = .ok (ro, db')) :
    db'.userVotes = db.userVotes ++ [⟨newId, v.userId, v.grievanceId, v.commentId, v.voteType, now⟩]
    ∨ db'.userVotes = db.userVotes.map (fun r => if upsertFallbackPred v r
        then { r with voteType := v.voteType, timestamp := now } else r) := by
  unfold createOrUpdateVote at h
  split at h
  · rename_i row db1 heq
    obtain ⟨hr, hdb1⟩ := insertVoteRow_ok_shape db v newId now row db1 heq
    injection h with hh
    have h2 := congrArg Prod.snd hh
    simp only at h2
    left
    rw [← h2, hdb1, hr]
  · injection h with hh
    have h2 := congrArg Prod.snd hh
    simp only at h2
    right
    rw [← h2]
  · exact absurd h (by simp)

theorem grievanceVoteStep_votes (db : Db) (uid gid : String) (k : VoteType)
    (newId : String) (now : Int) (db1 : Db)
    (h : grievanceVoteStep db uid gid k newId now = .ok db1) :
    db1.userVotes = db.userVotes.filter (fun vv => !voteMatches uid (some gid) none vv)
    ∨ db1.userVotes = db.userVotes ++ [⟨newId, uid, some gid, none, k, now⟩]
    ∨ db1.userVotes = db.userVotes.map (fun r =>
        if upsertFallbackPred { userId := uid, grievanceId := some gid, voteType := k } r
        then { r with voteType := k, timestamp := now } else r) := by
  unfold grievanceVoteStep at h
  split at h
  · split at h
    · injection h with hh
      rw [← hh]
      exact Or.inl rfl
    · cases hco : createOrUpdateVote db
          { userId := uid, grievanceId := some gid, voteType := k } newId now with
      | ok p =>
          rw [hco] at h
          injection h with hh
          rw [← hh]
          exact Or.inr (createOrUpdateVote_votes db _ newId now p.1 p.2 hco)
      | error e =>
          rw [hco] at h
          exact absurd h (by simp [Except.map])
  · cases hco : createOrUpdateVote db
        { userId := uid, grievanceId := some gid, voteType := k } newId now with
    | ok p =>
        rw [hco] at h
        injection h with hh
        rw [← hh]
        exact Or.inr (createOrUpdateVote_votes db _ newId now p.1 p.2 hco)
    | error e =>
        rw [hco] at h
        exact absurd h (by simp [Except.map])

theorem commentVoteStep_votes (db : Db) (uid cid : String) (k : VoteType)
    (newId : String) (now : Int) (db1 : Db)
    (h : commentVoteStep db uid cid k newId now = .ok db1) :
    db1.userVotes = db.userVotes.filter (fun vv => !voteMatches uid none (some cid) vv)
    ∨ db1.userVotes = db.userVotes ++ [⟨newId, uid, none, some cid, k, now⟩]
    ∨ db1.userVotes = db.userVotes.map (fun r =>
        if upsertFallbackPred { userId := uid, commentId := some cid, voteType := k } r
        then { r with voteType := k, timestamp := now } else r) := by
  unfold commentVoteStep at h
  split at h
  · split at h
    · injection h with hh
      rw [← hh]
      exact Or.inl rfl
    · cases hco : createOrUpdateVote db
          { userId := uid, commentId := some cid, voteType := k } newId now with
      | ok p =>
          rw [hco] at h
          injection h with hh
          rw [← hh]
          exact Or.inr (createOrUpdateVote_votes db _ newId now p.1 p.2 hco)
      | error e =>
          rw [hco] at h
          exact absurd h (by simp [Except.map])
  · cases hco : createOrUpdateVote db
        { userId := uid, commentId := some cid, voteType := k } newId now with
    | ok p =>
        rw [hco] at h
        injection h with hh
        rw [← hh]
        exact Or.inr (createOrUpdateVote_votes db _ newId now p.1 p.2 hco)
    | error e =>
        rw [hco] at h
        exact absurd h (by simp [Except.map])

theorem counts_preserved_g (db : Db) (uid gid : String) (k : VoteType)
    (newId : String) (now : Int) (db1 : Db) (hwf : wfTargets db)
    (hst : grievanceVoteStep db uid gid k newId now = .ok db1) :
    (∀ g', g' ≠ gid → ∀ k', countVG db1.userVotes g' k' = countVG db.userVotes g' k')
    ∧ (∀ c', countVC db1.userVotes c' = countVC db.userVotes c') := by
  rcases grievanceVoteStep_votes db uid gid k newId now db1 hst with hv | hv | hv
  · constructor
    · intro g' hne k'
      unfold countVG
      rw [hv]
      rw [filter_filter_not_mem _ _ _ ?_]
      intro a _ hq
      have hga : a.grievanceId = some g' := by
        have := (Bool.and_eq_true ..).mp hq
        exact eq_of_beq this.1
      simp [voteMatches, hga, hne]
    · intro c'
      unfold countVC
      rw [hv]
      rw [filter_filter_not_mem _ _ _ ?_]
      intro a ha hq
      have hca : a.commentId = some c' := by
        have := (Bool.and_eq_true ..).mp hq
        exact eq_of_beq this.1
      cases hpv : voteMatches uid (some gid) none a with
      | false => rfl
      | true =>
          exfalso
          have hga : a.grievanceId = some gid := by
            rw [voteMatches_g] at hpv
            have := (Bool.and_eq_true ..).mp hpv
            exact eq_of_beq this.2
          rcases hwf a ha with ⟨-, hcn⟩ | ⟨hgn, -⟩
          · rw [hcn] at hca
            cases hca
          · rw [hgn] at hga
            cases hga
  · constructor
    · intro g' hne k'
      unfold countVG
      rw [hv, List.filter_append]
      have : ((some gid : Option String) == some g') = false := by
        simp [hne.symm]
      simp [this]
    · intro c'
      unfold countVC
      rw [hv, List.filter_append]
      simp
  · constructor
    · intro g' hne k'
      unfold countVG
      rw [hv]
      rw [filter_map_pred_mem _ _ _ ?_, List.length_map]
      intro a _
      by_cases hp : upsertFallbackPred { userId := uid, grievanceId := some gid, voteType := k } a = true
      · have hga : a.grievanceId = some gid := by
          rw [upsertFallbackPred_g] at hp
          have := (Bool.and_eq_true ..).mp hp
          exact eq_of_beq this.2
        simp only [hp, if_true]
        have h1 : (({ a with voteType := k, timestamp := now } : UserVote).grievanceId
            == some g') = false := by
          simp [hga, Ne.symm hne]
        have h2 : (a.grievanceId == some g') = false := by
          simp [hga, Ne.symm hne]
        simp [h1, h2]
      · simp [hp]
    · intro c'
      unfold countVC
      rw [hv]
      rw [filter_map_pred_mem _ _ _ ?_, List.length_map]
      intro a ha
      by_cases hp : upsertFallbackPred { userId := uid, grievanceId := some gid, voteType := k } a = true
      · have hga : a.grievanceId = some gid := by
          rw [upsertFallbackPred_g] at hp
          have := (Bool.and_eq_true ..).mp hp
          exact eq_of_beq this.2
        have hcn : a.commentId = none := by
          rcases hwf a ha with ⟨-, hcn⟩ | ⟨hgn, -⟩
          · exact hcn
          · rw [hgn] at hga
            cases hga
        simp only [hp, if_true]
        simp [hcn]
      · simp [hp]

theorem counts_preserved_c (db : Db) (uid cid : String) (k : VoteType)
    (newId : String) (now : Int) (db1 : Db) (hwf : wfTargets db)
    (hst : commentVoteStep db uid cid k newId now = .ok db1) :
    (∀ g' k', countVG db1.userVotes g' k' = countVG db.userVotes g' k')
    ∧ (∀ c', c' ≠ cid → countVC db1.userVotes c' = countVC db.userVotes c') := by
  rcases commentVoteStep_votes db uid cid k newId now db1 hst with hv | hv | hv
  · constructor
    · intro g' k'
      unfold countVG
      rw [hv]
      rw [filter_filter_not_mem _ _ _ ?_]
      intro a ha hq
      have hga : a.grievanceId = some g' := by
        have := (Bool.and_eq_true ..).mp hq
        exact eq_of_beq this.1
      cases hpv : voteMatches uid none (some cid) a with
      | false => rfl
      | true =>
          exfalso
          have hca : a.commentId = some cid := by
            rw [voteMatches_c] at hpv
            have := (Bool.and_eq_true ..).mp hpv
            exact eq_of_beq this.2
          rcases hwf a ha with ⟨-, hcn⟩ | ⟨hgn, -⟩
          · rw [hcn] at hca
            cases hca
          · rw [hgn] at hga
            cases hga
    · intro c' hne
      unfold countVC
      rw [hv]
      rw [filter_filter_not_mem _ _ _ ?_]
      intro a _ hq
      have hca : a.commentId = some c' := by
        have := (Bool.and_eq_true ..).mp hq
        exact eq_of_beq this.1
      simp [voteMatches, hca, hne]
  · constructor
    · intro g' k'
      unfold countVG
      rw [hv, List.filter_append]
      simp
    · intro c' hne
      unfold countVC
      rw [hv, List.filter_append]
      have : ((some cid : Option String) == some c') = false := by
        simp [hne.symm]
      simp [this]
  · constructor
    · intro g' k'
      unfold countVG
      rw [hv]
      rw [filter_map_pred_mem _ _ _ ?_, List.length_map]
      intro a ha
      by_cases hp : upsertFallbackPred { userId := uid, commentId := some cid, voteType := k } a = true
      · have hca : a.commentId = some cid := by
          rw [upsertFallbackPred_c] at hp
          have := (Bool.and_eq_true ..).mp hp
          exact eq_of_beq this.2
        have hgn : a.grievanceId = none := by
          rcases hwf a ha with ⟨hgs, hcn⟩ | ⟨hgn, -⟩
          · rw [hcn] at hca
            cases hca
          · exact hgn
        simp only [hp, if_true]
        simp [hgn]
      · simp [hp]
    · intro c' hne
      unfold countVC
      rw [hv]
      rw [filter_map_pred_mem _ _ _ ?_, List.length_map]
      intro a _
      by_cases hp : upsertFallbackPred { userId := uid, commentId := some cid, voteType := k } a = true
      · have hca : a.commentId = some cid := by
          rw [upsertFallbackPred_c] at hp
          have := (Bool.and_eq_true ..).mp hp
          exact eq_of_beq this.2
        simp only [hp, if_true]
        have h1 : (({ a with voteType := k, timestamp := now } : UserVote).commentId
            == some c') = false := by
          simp [hca, Ne.symm hne]
        have h2 : (a.commentId == some c') = false := by
          simp [hca, Ne.symm hne]
        simp [h1, h2]
      · simp [hp]

theorem countersConsistent_gRoute (db : Db) (uid gid voteType newId : String) (now : Int)
    (hwf : wfTargets db) (hinv : countersConsistent db) :
    countersConsistent (grievanceVoteRoute db uid gid voteType newId now).2 := by
  by_cases hv : (!(voteType == "up" || voteType == "down")) = true
  · simpa only [grievanceVoteRoute, hv, if_true] using hinv
  · have hvf : (!(voteType == "up" || voteType == "down")) = false := by simpa using hv
    cases hgg : getGrievance db gid with
    | none =>
        simpa only [grievanceVoteRoute, hvf, Bool.false_eq_true, if_false, hgg] using hinv
    | some p =>
        cases hst : grievanceVoteStep db uid gid
            (if voteType == "up" then VoteType.up else VoteType.down) newId now with
        | error e =>
            simpa only [grievanceVoteRoute, hvf, Bool.false_eq_true, if_false, hgg, hst] using hinv
        | ok db1 =>
            obtain ⟨hgr1, hcm1, hus1⟩ := grievanceVoteStep_tables db uid gid _ newId now db1 hst
            obtain ⟨hcg, hcc⟩ := counts_preserved_g db uid gid _ newId now db1 hwf hst
            simp only [grievanceVoteRoute, hvf, Bool.false_eq_true, if_false, hgg, hst]
            constructor
            · intro g' hmem
              rw [(updateVoteCounts_g_parts db1 gid).2.2.2, hgr1] at hmem
              rw [(updateVoteCounts_g_parts db1 gid).1]
              obtain ⟨x, hx, hfx⟩ := List.mem_map.mp hmem
              by_cases hxe : (x.id == gid) = true
              · rw [hxe] at hfx
                simp only [if_true] at hfx
                rw [← hfx]
                have hxid : x.id = gid := by simpa using hxe
                simp [hxid]
              · have hxf : (x.id == gid) = false := by simpa using hxe
                rw [hxf] at hfx
                simp only [Bool.false_eq_true, if_false] at hfx
                rw [← hfx]
                have hxne : x.id ≠ gid := by simpa using hxf
                rw [hcg x.id hxne .up, hcg x.id hxne .down]
                exact (hinv.1 x hx)
            · intro c' hmem
              rw [(updateVoteCounts_g_parts db1 gid).2.2.1, hcm1] at hmem
              rw [(updateVoteCounts_g_parts db1 gid).1]
              rw [hcc c'.id]
              exact hinv.2 c' hmem

theorem countersConsistent_cRoute (db : Db) (uid cid voteType newId : String) (now : Int)
    (hwf : wfTargets db) (hinv : countersConsistent db) :
    countersConsistent (commentVoteRoute db uid cid voteType newId now).2 := by
  by_cases hv : (!(voteType == "up" || voteType == "down")) = true
  · simpa only [commentVoteRoute, hv, if_true] using hinv
  · have hvf : (!(voteType == "up" || voteType == "down")) = false := by simpa using hv
    cases hst : commentVoteStep db uid cid
        (if voteType == "up" then VoteType.up else VoteType.down) newId now with
    | error e =>
        simpa only [commentVoteRoute, hvf, Bool.false_eq_true, if_false, hst] using hinv
    | ok db1 =>
        obtain ⟨hgr1, hcm1, hus1⟩ := commentVoteStep_tables db uid cid _ newId now db1 hst
        obtain ⟨hcg, hcc⟩ := counts_preserved_c db uid cid _ newId now db1 hwf hst
        simp only [commentVoteRoute, hvf, Bool.false_eq_true, if_false, hst]
        constructor
        · intro g' hmem
          rw [(updateVoteCounts_c_parts db1 cid).2.2.1, hgr1] at hmem
          rw [(updateVoteCounts_c_parts db1 cid).1]
          rw [hcg g'.id .up, hcg g'.id .down]
          exact hinv.1 g' hmem
        · intro c' hmem
          rw [(updateVoteCounts_c_parts db1 cid).2.2.2, hcm1] at hmem
          rw [(updateVoteCounts_c_parts db1 cid).1]
          obtain ⟨x, hx, hfx⟩ := List.mem_map.mp hmem
          by_cases hxe : (x.id == cid) = true
          · rw [hxe] at hfx
            simp only [if_true] at hfx
            rw [← hfx]
            have hxid : x.id = cid := by simpa using hxe
            simp [hxid]
          · have hxf : (x.id == cid) = false := by simpa using hxe
            rw [hxf] at hfx
            simp only [Bool.false_eq_true, if_false] at hfx
            rw [← hfx]
            have hxne : x.id ≠ cid := by simpa using hxf
            rw [hcc x.id hxne]
            exact hinv.2 x hx

/-- C2: Counter invariant — `updateVoteCounts` writes onto its target
exactly the counts of the target's vote rows of each kind (comments only
track `up`), and after every completed vote route call the invariant
"every grievance's counters equal its vote-row counts and every comment's
upvotes equal its up-row count" is preserved. -/
theorem counter_invariant :
    (∀ (db : Db) (gid : String), ∀ g' ∈ (updateVoteCounts db (some gid) none).grievances,
        g'.id = gid →
          g'.upvotes = (countVG (updateVoteCounts db (some gid) none).userVotes gid .up : Int)
          ∧ g'.downvotes = (countVG (updateVoteCounts db (some gid) none).userVotes gid .down : Int))
    ∧ (∀ (db : Db) (cid : String), ∀ c' ∈ (updateVoteCounts db none (some cid)).comments,
        c'.id = cid →
          c'.upvotes = (countVC (updateVoteCounts db none (some cid)).userVotes cid : Int))
    ∧ (∀ (db : Db) (uid gid voteType newId : String) (now : Int),
        wfTargets db → countersConsistent db →
        countersConsistent (grievanceVoteRoute db uid gid voteType newId now).2)
    ∧ (∀ (db : Db) (uid cid voteType newId : String) (now : Int),
        wfTargets db → countersConsistent db →
        countersConsistent (commentVoteRoute db uid cid voteType newId now).2) := by
  refine ⟨?_, ?_, countersConsistent_gRoute, countersConsistent_cRoute⟩
  · intro db gid g' hmem hgid
    rw [(updateVoteCounts_g_parts db gid).2.2.2] at hmem
    rw [(updateVoteCounts_g_parts db gid).1]
    obtain ⟨x, hx, hfx⟩ := List.mem_map.mp hmem
    by_cases hxe : (x.id == gid) = true
    · rw [hxe] at hfx
      simp only [if_true] at hfx
      rw [← hfx]
      exact ⟨rfl, rfl⟩
    · exfalso
      have hxf : (x.id == gid) = false := by simpa using hxe
      rw [hxf] at hfx
      simp only [Bool.false_eq_true, if_false] at hfx
      rw [← hfx] at hgid
      rw [hgid] at hxf
      simp at hxf
  · intro db cid c' hmem hcid
    rw [(updateVoteCounts_c_parts db cid).2.2.2] at hmem
    rw [(updateVoteCounts_c_parts db cid).1]
    obtain ⟨x, hx, hfx⟩ := List.mem_map.mp hmem
    by_cases hxe : (x.id == cid) = true
    · rw [hxe] at hfx
      simp only [if_true] at hfx
      rw [← hfx]
    · exfalso
      have hxf : (x.id == cid) = false := by simpa using hxe
      rw [hxf] at hfx
      simp only [Bool.false_eq_true, if_false] at hfx
      rw [← hfx] at hcid
      rw [hcid] at hxf
      simp at hxf

/-- Witness for C2: the invariant holds on the concrete database and is
preserved by a concrete up-vote. -/
theorem counter_invariant_witness :
    wfTargets exDb ∧ countersConsistent exDb
    ∧ countersConsistent (grievanceVoteRoute exDb "u1" "g1" "up" "v1" 2000).2 := by
  have hwf : wfTargets exDb := by
    intro v hv
    simp [exDb] at hv
  have hinv : countersConsistent exDb := by
    constructor
    · intro g hg
      simp only [exDb, List.mem_singleton] at hg
      subst hg
      constructor <;> decide
    · intro c hc
      simp [exDb] at hc
  exact ⟨hwf, hinv, counter_invariant.2.2.1 exDb "u1" "g1" "up" "v1" 2000 hwf hinv⟩

instance sortKeyLE_isTotal (k : Option String) : IsTotal Grievance (sortKeyLE k) := by
  constructor
  intro a b
  unfold sortKeyLE
  split_ifs <;> omega

instance sortKeyLE_isTrans (k : Option String) : IsTrans Grievance (sortKeyLE k) := by
  constructor
  intro a b c hab hbc
  unfold sortKeyLE at hab hbc ⊢
  split_ifs at hab hbc ⊢ <;> omega

/-- C5 counterexample: two distinct grievances with identical sort keys
under the default `newest` ordering — the reversed order is admissible for
the program's ORDER BY contract (a permutation, ordered by the key), so the
claim's "ties keep storage order" is not guaranteed by the code, which adds
no tie-break. -/
theorem sort_ties_counterexample :
    (sortKeyLE (some "newest") exTieA exTieB ∧ sortKeyLE (some "newest") exTieB exTieA)
    ∧ admissibleSort (some "newest") [exTieA, exTieB] [exTieB, exTieA]
    ∧ exTieA ≠ exTieB := by
  refine ⟨⟨by decide, by decide⟩, ⟨by decide, by decide⟩, by decide⟩

/-- C5 amended: the query's ORDER BY guarantees that any returned order is
a permutation of the matching rows ordered by the sort key's relation
(`newest` timestamp desc, `oldest` asc, `upvotes-high`/`upvotes-low` net
votes desc/asc, `urgent` urgency-case first then timestamp desc); the
relative order of rows with equal keys is unspecified.  The model's
evaluation satisfies this contract, `getGrievances` is exactly the
filter-sort-paginate-join pipeline, and for the nets 5, -1, 3 example the
keys are distinct, so every admissible result is 5, 3, -1. -/
theorem sortGrievances_spec :
    (∀ (k : Option String) (l : List Grievance), admissibleSort k l (sortGrievances k l))
    ∧ (∀ (db : Db) (f : Filters),
        (getGrievances db f).1
          = (paginate f.limit f.offset
              (sortGrievances f.sortBy (db.grievances.filter (matchesFilters f)))).map
              (joinAuthor db))
    ∧ (∀ out, admissibleSort (some "upvotes-high") [exG5, exGm1, exG3] out
        → out = [exG5, exG3, exGm1]) := by
  refine ⟨fun k l => ⟨List.perm_insertionSort _ l, List.sorted_insertionSort _ l⟩,
    fun db f => rfl, ?_⟩
  rintro out ⟨hp, hs⟩
  have hlen := hp.length_eq
  match out, hp, hs, hlen with
  | [x, y, z], hp, hs, _ =>
      have hx : x ∈ ([exG5, exGm1, exG3] : List Grievance) := hp.subset (by simp)
      have hy : y ∈ ([exG5, exGm1, exG3] : List Grievance) := hp.subset (by simp)
      have hz : z ∈ ([exG5, exGm1, exG3] : List Grievance) := hp.subset (by simp)
      fin_cases hx <;> fin_cases hy <;> fin_cases hz <;>
        first
          | rfl
          | exact absurd hp (by decide)
          | exact absurd hs (by decide)

/-- Witness for C5: the unique-result clause applied to the concrete
admissible ordering of the three-element example. -/
theorem sortGrievances_spec_witness :
    admissibleSort (some "upvotes-high") [exG5, exGm1, exG3] [exG5, exG3, exGm1]
    ∧ [exG5, exG3, exGm1] = [exG5, exG3, exGm1] :=
  ⟨⟨by decide, by decide⟩,
    sortGrievances_spec.2.2 [exG5, exG3, exGm1] ⟨by decide, by decide⟩⟩

theorem tailsList_any_iff (f : List Char → Bool) (s : List Char) :
    (tailsList s).any f = true ↔ ∃ n, f (s.drop n) = true := by
  induction s with
  | nil =>
      constructor
      · intro h
        exact ⟨0, by simpa [tailsList] using h⟩
      · rintro ⟨n, hn⟩
        simpa [tailsList] using by simpa [List.drop_nil] using hn
  | cons c t ih =>
      simp only [tailsList, List.any_cons]
      constructor
      · intro h
        rcases (Bool.or_eq_true ..).mp h with h1 | h2
        · exact ⟨0, h1⟩
        · obtain ⟨n, hn⟩ := ih.mp h2
          exact ⟨n + 1, hn⟩
      · rintro ⟨n, hn⟩
        cases n with
        | zero => exact (Bool.or_eq_true ..).mpr (Or.inl hn)
        | succ m => exact (Bool.or_eq_true ..).mpr (Or.inr (ih.mpr ⟨m, hn⟩))

theorem likeMatch_percent (p : List Char) (s : List Char) :
    likeMatch ('%' :: p) s = (tailsList s).any (fun s' => likeMatch p s') := by
  rw [likeMatch.eq_def]
  simp only [if_true, eq_self_iff_true]

theorem likeMatch_plain_cons (c : Char) (hc : plainChar c = true) (p : List Char)
    (s : List Char) :
    likeMatch (c :: p) s
      = (match s with
         | [] => false
         | d :: s' => lowerChar d == lowerChar c && likeMatch p s') := by
  have h := hc
  simp only [plainChar, Bool.and_eq_true, Bool.not_eq_true', beq_eq_false_iff_ne] at h
  rw [likeMatch.eq_def]
  simp only
  rw [if_neg h.1.1, if_neg h.1.2, if_neg h.2]

theorem likeMatch_lit (q : List Char) (hq : q.all plainChar = true) (s : List Char) :
    likeMatch (q ++ ['%']) s = true ↔ leadsWith (q.map lowerChar) (s.map lowerChar) = true := by
  induction q generalizing s with
  | nil =>
      simp only [List.nil_append, List.map_nil]
      rw [likeMatch_percent]
      constructor
      · intro _
        rfl
      · intro _
        rw [tailsList_any_iff]
        refine ⟨s.length, ?_⟩
        rw [List.drop_length]
        rfl
  | cons c q' ih =>
      simp only [List.all_cons, Bool.and_eq_true] at hq
      rw [List.cons_append, likeMatch_plain_cons c hq.1]
      cases s with
      | nil =>
          simp [leadsWith]
      | cons d s' =>
          simp only [List.map_cons, leadsWith]
          constructor
          · intro h
            obtain ⟨h1, h2⟩ := (Bool.and_eq_true ..).mp h
            apply (Bool.and_eq_true ..).mpr
            refine ⟨?_, (ih hq.2 s').mp h2⟩
            have : lowerChar d = lowerChar c := by simpa using h1
            simp [this]
          · intro h
            obtain ⟨h1, h2⟩ := (Bool.and_eq_true ..).mp h
            apply (Bool.and_eq_true ..).mpr
            refine ⟨?_, (ih hq.2 s').mpr h2⟩
            have : lowerChar c = lowerChar d := by simpa using h1
            simp [this]

theorem occursIn_iff (a b : List Char) :
    occursIn a b = true ↔ ∃ n, leadsWith a (b.drop n) = true := by
  induction b with
  | nil =>
      simp only [occursIn]
      constructor
      · intro h
        exact ⟨0, h⟩
      · rintro ⟨n, hn⟩
        simpa [List.drop_nil] using hn
  | cons c t ih =>
      simp only [occursIn]
      constructor
      · intro h
        rcases (Bool.or_eq_true ..).mp h with h1 | h2
        · exact ⟨0, h1⟩
        · obtain ⟨n, hn⟩ := ih.mp h2
          exact ⟨n + 1, hn⟩
      · rintro ⟨n, hn⟩
        cases n with
        | zero => exact (Bool.or_eq_true ..).mpr (Or.inl hn)
        | succ m => exact (Bool.or_eq_true ..).mpr (Or.inr (ih.mpr ⟨m, hn⟩))

theorem ilike_eq_ciOccurs (s t : String) (hs : noWildcards s = true) :
    ilike t ("%" ++ s ++ "%") = ciOccurs s t := by
  have hdata : ("%" ++ s ++ "%").data = '%' :: (s.data ++ ['%']) := by
    simp [String.data_append]
  unfold ilike ciOccurs
  rw [hdata]
  rw [Bool.eq_iff_iff]
  rw [likeMatch_percent, tailsList_any_iff, occursIn_iff]
  constructor
  · rintro ⟨n, hn⟩
    refine ⟨n, ?_⟩
    rw [← List.map_drop]
    exact (likeMatch_lit s.data hs (t.data.drop n)).mp hn
  · rintro ⟨n, hn⟩
    refine ⟨n, ?_⟩
    rw [← List.map_drop] at hn
    exact (likeMatch_lit s.data hs (t.data.drop n)).mpr hn

theorem eqFilter_clause (v : Option String) (fieldVal : String) :
    (if strTruthy v && !(v == some "all") then fieldVal == v.getD "" else true)
    = (match v with
       | none => true
       | some c => if c = "" ∨ c = "all" then true else fieldVal == c) := by
  cases v with
  | none => rfl
  | some c =>
      by_cases h1 : c = ""
      · subst h1
        simp [strTruthy]
      · by_cases h2 : c = "all"
        · subst h2
          simp [strTruthy]
        · simp [strTruthy, h1, h2]

/-- C6 amended: a category / municipality / status filter value that is
absent, empty, or the sentinel `all` imposes no constraint; any other value
requires field equality, except that an active status value outside the
five enum labels never filters at all — it makes the query raise
invalid_text_representation (the route answers 500); a free-text search
value containing no SQL LIKE wildcard or escape character (`%`, `_`,
backslash) matches a grievance exactly when it occurs case-insensitively in
its title, description or location; on the non-raising inputs the query's
pre-pagination result is exactly the grievances satisfying all active
filters. -/
theorem matchesFilters_amended_spec (db : Db) (f : Filters)
    (hw : noWildcards (f.search.getD "") = true)
    (hst : (strTruthy f.status && !(f.status == some "all")) = true →
        validStatusStr (f.status.getD "") = true) :
    (∀ g, matchesFilters f g = specMatchesFilters f g)
    ∧ getGrievancesE db { f with limit := none, offset := none }
        = .ok (getGrievances db { f with limit := none, offset := none })
    ∧ ((getGrievances db { f with limit := none, offset := none }).1).Perm
        ((db.grievances.filter (specMatchesFilters f)).map (joinAuthor db))
    ∧ (∀ (db' : Db) (f' : Filters),
        (strTruthy f'.status && !(f'.status == some "all")) = true →
        validStatusStr (f'.status.getD "") = false →
        getGrievancesE db' f' = .error .invalidTextRepresentation) := by
  have hpt : ∀ g, matchesFilters f g = specMatchesFilters f g := by
    intro g
    unfold matchesFilters specMatchesFilters
    rw [eqFilter_clause f.category g.category, eqFilter_clause f.municipality g.municipality,
      eqFilter_clause f.status g.status.toStr]
    have hauth : (match f.authorId with
        | some a => if a == "" then true else g.authorId == a
        | none => true)
        = (match f.authorId with
           | none => true
           | some a => if a = "" then true else g.authorId == a) := by
      cases f.authorId with
      | none => rfl
      | some a =>
          by_cases h : a = ""
          · subst h
            simp
          · simp [h]
    rw [hauth]
    have hsearch :
        (if strTruthy f.search then
            let pat := "%" ++ f.search.getD "" ++ "%"
            ilike g.title pat || ilike g.description pat
              || (match g.location with
                  | some loc => ilike loc pat
                  | none => false)
          else true)
        = (match f.search with
           | none => true
           | some s =>
               if s = "" then true
               else
                 ciOccurs s g.title || ciOccurs s g.description
                   || (match g.location with
                       | some loc => ciOccurs s loc
                       | none => false)) := by
      cases hfs : f.search with
      | none => rfl
      | some s =>
          by_cases h1 : s = ""
          · subst h1
            simp [strTruthy]
          · have hw' : noWildcards s = true := by
              rw [hfs] at hw
              exact hw
            have ht : strTruthy (some s) = true := by
              simp [strTruthy, h1]
            simp only [ht, if_true, h1, if_false, Option.getD_some]
            rw [ilike_eq_ciOccurs s g.title hw', ilike_eq_ciOccurs s g.description hw']
            cases g.location with
            | none => rfl
            | some loc =>
                dsimp only
                rw [ilike_eq_ciOccurs s loc hw']
    rw [hsearch]
  refine ⟨hpt, ?_, ?_, ?_⟩
  · by_cases ha : (strTruthy f.status && !(f.status == some "all")) = true
    · have hv := hst ha
      simp [getGrievancesE, ha, hv]
    · have haf : (strTruthy f.status && !(f.status == some "all")) = false := by
        simpa using ha
      simp [getGrievancesE, haf]
  · have heq : db.grievances.filter (matchesFilters f)
        = db.grievances.filter (specMatchesFilters f) :=
      List.filter_congr (fun a _ => hpt a)
    show ((sortGrievances f.sortBy (db.grievances.filter (matchesFilters f))).map
        (joinAuthor db)).Perm _
    rw [heq]
    exact (List.perm_insertionSort _ _).map (joinAuthor db)
  · intro db' f' h1 h2
    simp [getGrievancesE, h1, h2]

/-- C6 counterexample: the search value `_` (a LIKE wildcard) matches a
grievance in whose title, description and location it never occurs; a
category filter with the empty-string value (neither `all` nor absent)
imposes no constraint although the grievance's category differs from it;
and a status filter with the non-enum value `bogus` (neither `all` nor
empty) does not filter by equality but makes the query raise. -/
theorem matchesFilters_wildcard_counterexample :
    matchesFilters { search := some "_" } exPlain = true
    ∧ (ciOccurs "_" exPlain.title || ciOccurs "_" exPlain.description) = false
    ∧ exPlain.location = none
    ∧ matchesFilters { category := some "" } exPlain = true
    ∧ exPlain.category ≠ ""
    ∧ getGrievancesE exDb { status := some "bogus" } = .error .invalidTextRepresentation
    ∧ validStatusStr "bogus" = false
    ∧ ("bogus" : String) ≠ "all" ∧ ("bogus" : String) ≠ "" :=
  ⟨by decide, by decide, by decide, by decide, by decide, rfl, by decide, by decide, by decide⟩

/-- Witness for the amended C6: the wildcard-free search `pot` with no
status filter agrees with case-insensitive containment on the concrete
grievance, which matches, and the query does not raise. -/
theorem matchesFilters_amended_spec_witness :
    noWildcards (({ search := some "pot" } : Filters).search.getD "") = true
    ∧ ((strTruthy ({ search := some "pot" } : Filters).status
          && !(({ search := some "pot" } : Filters).status == some "all")) = true →
        validStatusStr (({ search := some "pot" } : Filters).status.getD "") = true)
    ∧ matchesFilters { search := some "pot" } exGrievance
        = specMatchesFilters { search := some "pot" } exGrievance
    ∧ matchesFilters { search := some "pot" } exGrievance = true
    ∧ getGrievancesE exDb { search := some "pot" }
        = .ok (getGrievances exDb { search := some "pot" }) :=
  ⟨by decide, by decide,
    (matchesFilters_amended_spec exDb { search := some "pot" } (by decide) (by decide)).1 exGrievance,
    by decide,
    (matchesFilters_amended_spec exDb { search := some "pot" } (by decide) (by decide)).2.1⟩
